import Mathlib

/-!
Verification development for the fund_estimator repository.

Shallow embedding conventions used throughout this file:
* Python floats are modelled as exact rationals (`ℚ`); the numeric literals
  `1e-9` and `1e-6` from the source become the rational constants `oneE9` and
  `oneE6`.  All claims here are about control flow and exact algebra, not
  float rounding.
* Python dicts keyed by strings are modelled as association lists that keep
  Python's insertion-order semantics (`dget` / `dset` below mirror
  `dict.get(k, 0.0)` and `dict[k] = v`).
* ISO timestamps (`created_at`) are modelled as a monotone `Nat` clock; the
  source sorts timestamp strings lexicographically, which on ISO strings is
  exactly chronological order, so the orders agree.
* Warning strings produced with f-strings are modelled as an inductive type
  whose constructor fields are exactly the interpolated values of the
  corresponding f-string (the surrounding literal text carries no data).
* Functions reading/writing JSON files become pure functions from/to the
  decoded state; the storage layer (`update_json`, Supabase) is outside the
  modelled core, so the local-file (`update_json`) branches of each service
  are the ones embedded.
-/

namespace FundEstimator

/-- `1e-9`, the tolerance used by the replay engine (`snapshot_service.py`). -/
def oneE9 : ℚ := 1 / 1000000000

/-- `1e-6`, the tolerance used by the edit bridge for the realized-pnl delta. -/
def oneE6 : ℚ := 1 / 1000000

/-!
## String ordering

Python compares strings lexicographically by code point (ISO dates compare
chronologically this way).  Lean's own `String.lt` is defined through the
iterator function `ltb`, which is compiled by well-founded recursion and
therefore does not reduce in the kernel, so we use a structurally recursive
comparison on the underlying character lists.  `strLE a b` is Python's
`a <= b`, i.e. `¬ (b < a)` for this total order.
-/

/-- Lexicographic `<` on char lists, by code point. -/
def clLt : List Char → List Char → Bool
  | [], [] => false
  | [], _ :: _ => true
  | _ :: _, [] => false
  | c :: cs, d :: ds =>
    if c = d then clLt cs ds else decide (c.toNat < d.toNat)

/-- Python string `<`. -/
def strLt (a b : String) : Bool := clLt a.data b.data

/-- Python string `<=` (equivalently `¬ b < a`). -/
def strLE (a b : String) : Bool := !(strLt b a)

theorem char_toNat_inj {c d : Char} (h : c.toNat = d.toNat) : c = d := by
  have h2 := congrArg Char.ofNat h
  simpa using h2

theorem clLt_asymm : ∀ {xs ys : List Char},
    clLt xs ys = true → clLt ys xs = true → False
  | [], [], h1, _ => by simp [clLt] at h1
  | [], _ :: _, _, h2 => by simp [clLt] at h2
  | _ :: _, [], h1, _ => by simp [clLt] at h1
  | c :: cs, d :: ds, h1, h2 => by
    by_cases hcd : c = d
    · subst hcd
      simp only [clLt, if_pos rfl] at h1 h2
      exact clLt_asymm h1 h2
    · simp only [clLt, if_neg hcd, if_neg (Ne.symm hcd), decide_eq_true_eq] at h1 h2
      exact Nat.lt_asymm h1 h2

theorem clLt_trans : ∀ {xs ys zs : List Char},
    clLt xs ys = true → clLt ys zs = true → clLt xs zs = true
  | [], [], _, h1, _ => by simp [clLt] at h1
  | [], _ :: _, [], _, h2 => by simp [clLt] at h2
  | [], _ :: _, _ :: _, _, _ => by simp [clLt]
  | _ :: _, [], _, h1, _ => by simp [clLt] at h1
  | _ :: _, _ :: _, [], _, h2 => by simp [clLt] at h2
  | c :: cs, d :: ds, e :: es, h1, h2 => by
    by_cases hcd : c = d
    · subst hcd
      simp only [clLt, if_pos rfl] at h1
      by_cases hde : c = e
      · subst hde
        simp only [clLt, if_pos rfl] at h2 ⊢
        exact clLt_trans h1 h2
      · simp only [clLt, if_neg hde] at h2 ⊢
        exact h2
    · simp only [clLt, if_neg hcd, decide_eq_true_eq] at h1
      by_cases hde : d = e
      · subst hde
        simp only [clLt, if_neg hcd, decide_eq_true_eq]
        exact h1
      · simp only [clLt, if_neg hde, decide_eq_true_eq] at h2
        have hlt : c.toNat < e.toNat := Nat.lt_trans h1 h2
        have hce : ¬ (c = e) := fun hc => by
          subst hc
          exact Nat.lt_irrefl _ hlt
        simp only [clLt, if_neg hce, decide_eq_true_eq]
        exact hlt

theorem clLt_eq_of_not : ∀ {xs ys : List Char},
    clLt xs ys = false → clLt ys xs = false → xs = ys
  | [], [], _, _ => rfl
  | [], _ :: _, h1, _ => by simp [clLt] at h1
  | _ :: _, [], _, h2 => by simp [clLt] at h2
  | c :: cs, d :: ds, h1, h2 => by
    by_cases hcd : c = d
    · subst hcd
      simp only [clLt, if_pos rfl] at h1 h2
      rw [clLt_eq_of_not h1 h2]
    · simp only [clLt, if_neg hcd, if_neg (Ne.symm hcd),
        decide_eq_false_iff_not] at h1 h2
      have := Nat.le_antisymm (Nat.le_of_not_lt h2) (Nat.le_of_not_lt h1)
      exact absurd (char_toNat_inj this) hcd

theorem strLt_asymm {a b : String} (h1 : strLt a b = true)
    (h2 : strLt b a = true) : False :=
  clLt_asymm h1 h2

theorem strLt_trans {a b c : String} (h1 : strLt a b = true)
    (h2 : strLt b c = true) : strLt a c = true :=
  clLt_trans h1 h2

theorem str_eq_of_not_lt {a b : String} (h1 : strLt a b = false)
    (h2 : strLt b a = false) : a = b := by
  cases a with
  | mk xs =>
    cases b with
    | mk ys =>
      exact congrArg String.mk (clLt_eq_of_not h1 h2)

theorem strLt_irrefl (a : String) : strLt a a = false := by
  cases h : strLt a a
  · rfl
  · exact (strLt_asymm h h).elim

/-!
## Adjustment journal (`services/adjustment_service.py`)

One row of `adjustments.json::items`.  `created_at` is the monotone clock
described above; `id` is the `uuid4().hex` value, opaque here.
-/

structure AdjEntry where
  id : String
  type : String
  code : String
  effective_date : String
  shares : ℚ
  price : ℚ
  cash : ℚ
  note : String
  source : String
  created_at : Nat
deriving DecidableEq, Repr

/-- Sort key order of `list_adjustments`:
`items.sort(key=lambda x: (x["effective_date"], x["created_at"]))`. -/
def adjLE (a b : AdjEntry) : Prop :=
  strLt a.effective_date b.effective_date = true ∨
    (a.effective_date = b.effective_date ∧ a.created_at ≤ b.created_at)

instance : DecidableRel adjLE := fun _a _b =>
  inferInstanceAs (Decidable (_ ∨ _))

instance : IsTotal AdjEntry adjLE where
  total a b := by
    cases h1 : strLt a.effective_date b.effective_date
    · cases h2 : strLt b.effective_date a.effective_date
      · have heq := str_eq_of_not_lt h1 h2
        rcases Nat.le_total a.created_at b.created_at with h' | h'
        · exact Or.inl (Or.inr ⟨heq, h'⟩)
        · exact Or.inr (Or.inr ⟨heq.symm, h'⟩)
      · exact Or.inr (Or.inl h2)
    · exact Or.inl (Or.inl h1)

instance : IsTrans AdjEntry adjLE where
  trans a b c hab hbc := by
    rcases hab with h1 | ⟨h1, h1'⟩
    · rcases hbc with h2 | ⟨h2, _⟩
      · exact Or.inl (strLt_trans h1 h2)
      · exact Or.inl (h2 ▸ h1)
    · rcases hbc with h2 | ⟨h2, h2'⟩
      · exact Or.inl (h1 ▸ h2)
      · exact Or.inr ⟨h1.trans h2, h1'.trans h2'⟩

/-- `list_adjustments()` (local JSON branch): return the journal items sorted
by `(effective_date, created_at)`.  Python's `list.sort` is stable and so is
`List.insertionSort`. -/
def listAdjustments (journal : List AdjEntry) : List AdjEntry :=
  List.insertionSort adjLE journal

/-- `list_adjustments(code)`: filter by instrument code first, then sort. -/
def listAdjustmentsFor (code : String) (journal : List AdjEntry) : List AdjEntry :=
  List.insertionSort adjLE (journal.filter (fun e => e.code == code))

/-!
## Replay engine (`services/snapshot_service.py`)
-/

/-- Python dict from codes to floats; insertion-ordered association list. -/
abbrev QDict := List (String × ℚ)

/-- `d.get(k, 0.0)` -/
def dget : QDict → String → ℚ
  | [], _ => 0
  | p :: rest, k => if p.1 = k then p.2 else dget rest k

/-- `d[k] = v`: update in place if the key exists, else append
(Python dict assignment keeps the key's position). -/
def dset : QDict → String → ℚ → QDict
  | [], k, v => [(k, v)]
  | p :: rest, k, v => if p.1 = k then (k, v) :: rest else p :: dset rest k v

/-- The advisory warnings of `build_positions_as_of_safe`; each constructor's
fields are the values interpolated into the corresponding f-string. -/
inductive ReplayWarning where
  /-- `"忽略无效 SELL：code={code}, shares={sh}, price={price}"` -/
  | invalidSell (code : String) (shares price : ℚ)
  /-- `"SELL 超过持仓，已截断：code={code}, sell={sh}, hold={cur_sh}, date={...}, id={...}"` -/
  | oversell (code : String) (sell hold : ℚ) (date : String) (id : String)
  /-- `"未知流水类型：{t}（已跳过） id={id}"` -/
  | unknownKind (type : String) (id : String)
deriving DecidableEq, Repr

structure ReplayState where
  shares : QDict
  avg_cost : QDict
  realized : QDict
  warnings : List ReplayWarning
deriving DecidableEq, Repr

/-- One iteration of the `for a in adjs` loop of `build_positions_as_of_safe`. -/
def replayStep (s : ReplayState) (a : AdjEntry) : ReplayState :=
  let sh := a.shares
  let price := a.price
  let cash := a.cash
  let cur_sh := dget s.shares a.code
  let cur_avg := dget s.avg_cost a.code
  let cur_real := dget s.realized a.code
  if a.type = "BUY" then
    let buy_amt := sh * price
    let old_amt := cur_sh * cur_avg
    let new_sh := cur_sh + sh
    let new_avg := if new_sh > 0 then (old_amt + buy_amt) / new_sh else 0
    { s with
      shares := dset s.shares a.code new_sh
      avg_cost := dset s.avg_cost a.code new_avg
      realized := dset s.realized a.code cur_real }
  else if a.type = "SELL" then
    if sh ≤ 0 ∨ price ≤ 0 then
      { s with warnings := s.warnings ++ [.invalidSell a.code sh price] }
    else
      let clamped : Bool := sh > cur_sh + oneE9
      let sh' := if clamped then max cur_sh 0 else sh
      let warns := if clamped
        then [ReplayWarning.oversell a.code sh cur_sh a.effective_date a.id]
        else []
      let pnl := (price - cur_avg) * sh'
      let new_sh := cur_sh - sh'
      { shares := dset s.shares a.code new_sh
        avg_cost := dset s.avg_cost a.code (if new_sh > 0 then cur_avg else 0)
        realized := dset s.realized a.code (cur_real + pnl)
        warnings := s.warnings ++ warns }
  else if a.type = "CASH_ADJ" then
    { s with
      realized := dset s.realized a.code (cur_real + cash)
      shares := dset s.shares a.code cur_sh
      avg_cost := dset s.avg_cost a.code cur_avg }
  else
    { s with warnings := s.warnings ++ [.unknownKind a.type a.id] }

def replayFold (adjs : List AdjEntry) : ReplayState :=
  adjs.foldl replayStep ⟨[], [], [], []⟩

structure PositionSnapshot where
  code : String
  shares_end : ℚ
  avg_cost_nav_end : ℚ
  realized_pnl_end : ℚ
deriving DecidableEq, Repr

structure SnapshotResult where
  positions : List PositionSnapshot
  warnings : List ReplayWarning
deriving DecidableEq, Repr

/-- `sorted(set(list(shares.keys()) + list(realized.keys())))` -/
def snapshotKeys (s : ReplayState) : List String :=
  List.insertionSort (fun a b => strLE a b = true)
    ((s.shares.map Prod.fst ++ s.realized.map Prod.fst).dedup)

/-- `build_positions_as_of_safe(target_date)` over an explicit journal. -/
def buildPositionsAsOfSafe (target_date : String) (journal : List AdjEntry) :
    SnapshotResult :=
  let adjs := (listAdjustments journal).filter
    (fun a => strLE a.effective_date target_date)
  let st := replayFold adjs
  let out := (snapshotKeys st).filterMap (fun code =>
    let sh := dget st.shares code
    let rc := dget st.realized code
    if sh > 0 ∨ |rc| > oneE9 then
      some ⟨code, sh, dget st.avg_cost code, rc⟩
    else none)
  ⟨out, st.warnings⟩

/-- `build_positions_as_of`: positions only. -/
def buildPositionsAsOf (target_date : String) (journal : List AdjEntry) :
    List PositionSnapshot :=
  (buildPositionsAsOfSafe target_date journal).positions

/-! Basic dictionary lemmas. -/

theorem dget_dset_same (d : QDict) (k : String) (v : ℚ) :
    dget (dset d k v) k = v := by
  induction d with
  | nil => simp [dget, dset]
  | cons p rest ih =>
    by_cases hp : p.1 = k
    · simp [dget, dset, hp]
    · simp [dget, dset, hp, ih]

theorem dget_dset_ne (d : QDict) (k k' : String) (v : ℚ) (h : k' ≠ k) :
    dget (dset d k v) k' = dget d k' := by
  have hkk' : ¬ (k = k') := fun hc => h hc.symm
  induction d with
  | nil =>
    simp only [dset, dget]
    rw [if_neg hkk']
  | cons p rest ih =>
    simp only [dset]
    by_cases hp : p.1 = k
    · rw [if_pos hp]
      simp only [dget]
      rw [if_neg hkk', if_neg (show ¬ (p.1 = k') from fun hc => h (hp.symm.trans hc).symm)]
    · rw [if_neg hp]
      simp only [dget]
      by_cases hp' : p.1 = k'
      · rw [if_pos hp', if_pos hp']
      · rw [if_neg hp', if_neg hp', ih]

/-!
## Claims C5, C6, C10 — replay engine
-/

/-- C5: in any replay state where an instrument holds 100 shares, processing a
SELL entry of 150 shares at a positive price clamps the sell to the 100
available shares: the instrument's shares drop to 0, its realized gain grows
by `(price − avg_cost) × 100`, exactly one over-sell warning carrying the
offending entry's id is appended, and the step is a total function (the
engine never raises). -/
theorem claim_C5_oversell_clamp (s : ReplayState) (a : AdjEntry)
    (htype : a.type = "SELL") (hsh : a.shares = 150) (hp : 0 < a.price)
    (hcur : dget s.shares a.code = 100) :
    dget (replayStep s a).shares a.code = 0 ∧
    dget (replayStep s a).realized a.code
      = dget s.realized a.code + (a.price - dget s.avg_cost a.code) * 100 ∧
    (replayStep s a).warnings
      = s.warnings ++ [.oversell a.code 150 100 a.effective_date a.id] := by
  have hBuy : ¬ (a.type = "BUY") := by rw [htype]; decide
  have hNeg : ¬ (a.shares ≤ 0 ∨ a.price ≤ 0) := by
    push_neg
    rw [hsh]
    exact ⟨by norm_num, hp⟩
  simp only [replayStep]
  rw [if_neg hBuy, if_pos htype, if_neg hNeg, hsh, hcur]
  have hlt : (decide ((150 : ℚ) > 100 + oneE9)) = true := by
    unfold oneE9
    norm_num
  rw [hlt, if_pos rfl,
    show ((100 : ℚ) ⊔ 0) = 100 from sup_eq_left.mpr (by norm_num)]
  norm_num [dget_dset_same]

/-- Closed witness for C5 at a concrete state and entry. -/
theorem claim_C5_witness :
    dget (replayStep
        ⟨[("510300", 100)], [("510300", 4)], [("510300", 0)], []⟩
        ⟨"e9", "SELL", "510300", "2026-02-03", 150, 5, 0, "", "manual", 7⟩).shares
        "510300" = 0 ∧
    dget (replayStep
        ⟨[("510300", 100)], [("510300", 4)], [("510300", 0)], []⟩
        ⟨"e9", "SELL", "510300", "2026-02-03", 150, 5, 0, "", "manual", 7⟩).realized
        "510300" = 100 ∧
    (replayStep
        ⟨[("510300", 100)], [("510300", 4)], [("510300", 0)], []⟩
        ⟨"e9", "SELL", "510300", "2026-02-03", 150, 5, 0, "", "manual", 7⟩).warnings
      = [] ++ [.oversell "510300" 150 100 "2026-02-03" "e9"] := by
  have h := claim_C5_oversell_clamp
    ⟨[("510300", 100)], [("510300", 4)], [("510300", 0)], []⟩
    ⟨"e9", "SELL", "510300", "2026-02-03", 150, 5, 0, "", "manual", 7⟩
    rfl rfl (by norm_num) (by norm_num [dget])
  refine ⟨h.1, ?_, h.2.2⟩
  rw [h.2.1]
  norm_num [dget]

/-- C6: the three-entry scenario journal
`[BUY 1000@4.50 on 01-29, CASH_ADJ +5 on 01-30, SELL 200@4.70 on 01-31]`
replays as of 2026-01-31 to `shares_end = 800`, `avg_cost = 4.50`,
`realized = 45 = 5 + (4.70 − 4.50) × 200`, with no warnings.
(Numbers are exact rationals; `45.0` is exact here.) -/
theorem claim_C6_scenario :
    buildPositionsAsOfSafe "2026-01-31"
      [⟨"a1", "BUY", "510300", "2026-01-29", 1000, 9/2, 0, "", "manual", 1⟩,
       ⟨"a2", "CASH_ADJ", "510300", "2026-01-30", 0, 0, 5, "", "manual", 2⟩,
       ⟨"a3", "SELL", "510300", "2026-01-31", 200, 47/10, 0, "", "manual", 3⟩]
      = ⟨[⟨"510300", 800, 9/2, 45⟩], []⟩ := by
  have f1 : strLt "2026-01-29" "2026-01-30" = true := by decide
  have f2 : strLt "2026-01-30" "2026-01-31" = true := by decide
  have f3 : strLt "2026-01-29" "2026-01-31" = true := by decide
  have f4 : strLt "2026-01-31" "2026-01-29" = false := by decide
  have f5 : strLt "2026-01-31" "2026-01-30" = false := by decide
  have f6 : strLt "2026-01-31" "2026-01-31" = false := by decide
  norm_num [buildPositionsAsOfSafe, listAdjustments, replayFold, replayStep,
    snapshotKeys, dget, dset, adjLE, strLE, oneE9,
    List.insertionSort, List.orderedInsert, List.dedup, List.pwFilter,
    f1, f2, f3, f4, f5, f6]
  simp

/-- C10: a SELL entry with non-positive shares or non-positive price is
skipped entirely by the replay step — the shares, average-cost and realized
dictionaries are untouched — and exactly one invalid-SELL warning naming the
entry's code, shares and price is appended; no exception is raised (the step
is total). -/
theorem claim_C10_invalid_sell_skipped (s : ReplayState) (a : AdjEntry)
    (htype : a.type = "SELL") (hbad : a.shares ≤ 0 ∨ a.price ≤ 0) :
    (replayStep s a).shares = s.shares ∧
    (replayStep s a).avg_cost = s.avg_cost ∧
    (replayStep s a).realized = s.realized ∧
    (replayStep s a).warnings
      = s.warnings ++ [.invalidSell a.code a.shares a.price] := by
  have hBuy : ¬ (a.type = "BUY") := by rw [htype]; decide
  simp only [replayStep, hBuy, if_false, htype, if_true, if_pos rfl,
    if_pos hbad]
  exact ⟨rfl, rfl, rfl, rfl⟩

/-- Closed witness for C10 at a concrete state and entry. -/
theorem claim_C10_witness :
    (replayStep ⟨[("F", 10)], [("F", 2)], [("F", 1)], []⟩
        ⟨"e7", "SELL", "F", "2026-02-02", 0, 3, 0, "", "manual", 5⟩).shares
      = [("F", 10)] ∧
    (replayStep ⟨[("F", 10)], [("F", 2)], [("F", 1)], []⟩
        ⟨"e7", "SELL", "F", "2026-02-02", 0, 3, 0, "", "manual", 5⟩).avg_cost
      = [("F", 2)] ∧
    (replayStep ⟨[("F", 10)], [("F", 2)], [("F", 1)], []⟩
        ⟨"e7", "SELL", "F", "2026-02-02", 0, 3, 0, "", "manual", 5⟩).realized
      = [("F", 1)] ∧
    (replayStep ⟨[("F", 10)], [("F", 2)], [("F", 1)], []⟩
        ⟨"e7", "SELL", "F", "2026-02-02", 0, 3, 0, "", "manual", 5⟩).warnings
      = [] ++ [.invalidSell "F" 0 3] :=
  claim_C10_invalid_sell_skipped
    ⟨[("F", 10)], [("F", 2)], [("F", 1)], []⟩
    ⟨"e7", "SELL", "F", "2026-02-02", 0, 3, 0, "", "manual", 5⟩
    rfl (Or.inl (by norm_num))

/-!
## Python string helpers

`str.strip()`, `str.upper()`, `str.lower()` modelled structurally over the
character list (Lean's own `String.trim`/`toUpper` walk byte positions and do
not reduce in the kernel).  The repository only ever applies these to ASCII
identifiers/codes, where `Char.toUpper`/`Char.toLower` agree with Python. -/

def strTrim (s : String) : String :=
  ⟨((s.data.dropWhile Char.isWhitespace).reverse.dropWhile
      Char.isWhitespace).reverse⟩

def strUpper (s : String) : String := ⟨s.data.map Char.toUpper⟩

def strLower (s : String) : String := ⟨s.data.map Char.toLower⟩

/-!
## `add_adjustment` / `remove_adjustment` (`services/adjustment_service.py`)

The local-JSON branch is embedded: validation happens before any mutation, so
a raised `ValueError` (here `.error`) leaves the journal unchanged by
construction.  `newId` stands for `uuid.uuid4().hex` and `now` for
`_now_iso()`, both produced outside the pure core.
-/

def addAdjustment (journal : List AdjEntry)
    (type code effective_date : String) (shares price cash : ℚ)
    (note source : Option String) (newId : String) (now : Nat) :
    Except String (List AdjEntry) :=
  let t := strUpper (strTrim type)
  let c := strTrim code
  let d := strTrim effective_date
  if ¬ (t = "BUY" ∨ t = "SELL" ∨ t = "CASH_ADJ") then
    .error "type must be BUY/SELL/CASH_ADJ"
  else if c = "" then
    .error "code is required"
  else if d = "" then
    .error "effective_date is required"
  else
    let src := strLower (strTrim (match source with
      | none => "manual"
      | some s => if s = "" then "manual" else s))
    if ¬ (src = "manual" ∨ src = "ui_edit") then
      .error "source must be manual/ui_edit"
    else if (t = "BUY" ∨ t = "SELL") ∧ shares ≤ 0 then
      .error "shares must be > 0 for BUY/SELL"
    else if (t = "BUY" ∨ t = "SELL") ∧ price ≤ 0 then
      .error "price must be > 0 for BUY/SELL"
    else
      .ok (journal ++ [⟨newId, t, c, d, shares, price, cash,
        note.getD "", src, now⟩])

def removeAdjustment (journal : List AdjEntry) (adj_id : String) :
    Except String (List AdjEntry) :=
  let i := strTrim adj_id
  if i = "" then
    .error "adj_id is required"
  else
    .ok (journal.filter (fun x => x.id != i))

/-- C8: (a) `add_adjustment` raises a validation error — leaving the journal
unchanged, since no write happens on the error path — whenever the
(normalised) entry kind is BUY or SELL and `shares ≤ 0` or `price ≤ 0`;
(b) `remove_adjustment` with an id matching no existing entry succeeds and
returns the journal with exactly the same entries (a no-op, not an error). -/
theorem claim_C8_validation_and_noop_removal :
    (∀ (journal : List AdjEntry) (type code effective_date : String)
        (shares price cash : ℚ) (note source : Option String)
        (newId : String) (now : Nat),
      (strUpper (strTrim type) = "BUY" ∨ strUpper (strTrim type) = "SELL") →
      (shares ≤ 0 ∨ price ≤ 0) →
      ∃ msg, addAdjustment journal type code effective_date shares price cash
        note source newId now = .error msg) ∧
    (∀ (journal : List AdjEntry) (adj_id : String),
      strTrim adj_id ≠ "" →
      (∀ e ∈ journal, e.id ≠ strTrim adj_id) →
      removeAdjustment journal adj_id = .ok journal) := by
  constructor
  · intro journal type code effective_date shares price cash note source
      newId now ht hbad
    simp only [addAdjustment]
    split
    · exact ⟨_, rfl⟩
    split
    · exact ⟨_, rfl⟩
    split
    · exact ⟨_, rfl⟩
    split
    · exact ⟨_, rfl⟩
    split
    · exact ⟨_, rfl⟩
    split
    · exact ⟨_, rfl⟩
    rename_i h5 h6
    exfalso
    rcases hbad with hb | hb
    · exact h5 ⟨ht, hb⟩
    · exact h6 ⟨ht, hb⟩
  · intro journal adj_id hne hno
    unfold removeAdjustment
    rw [if_neg hne]
    congr 1
    apply List.filter_eq_self.mpr
    intro e he
    simpa using hno e he

/-- Closed witness for C8: a BUY with zero shares is rejected, and removing a
missing id from a one-entry journal returns the journal unchanged. -/
theorem claim_C8_witness :
    (∃ msg, addAdjustment [] "BUY" "510300" "2026-02-03" 0 1 0 none none
      "id1" 5 = .error msg) ∧
    removeAdjustment
      [⟨"a1", "BUY", "510300", "2026-02-01", 10, 1, 0, "", "manual", 1⟩] "zzz"
      = .ok [⟨"a1", "BUY", "510300", "2026-02-01", 10, 1, 0, "", "manual", 1⟩] :=
  ⟨claim_C8_validation_and_noop_removal.1 [] "BUY" "510300" "2026-02-03"
      0 1 0 none none "id1" 5 (Or.inl (by decide)) (Or.inl (by norm_num)),
    claim_C8_validation_and_noop_removal.2
      [⟨"a1", "BUY", "510300", "2026-02-01", 10, 1, 0, "", "manual", 1⟩] "zzz"
      (by decide) (by decide)⟩

/-!
## Daily ledger rows and accuracy analytics (`services/accuracy_service.py`)

One row of `daily_ledger.json::items` as written by
`settlement_service.finalize_estimated_close` / `settle_day`.  The writer
always stores the estimate and position fields as floats, so they are plain
`ℚ` here; `official_nav` / `official_pnl` are `None` until settlement, hence
`Option ℚ`.  `updated_at` is the monotone clock.
-/

structure LedgerItem where
  date : String
  code : String
  shares_end : ℚ
  avg_cost_nav_end : ℚ
  realized_pnl_end : ℚ
  estimated_nav_close : ℚ
  estimated_pnl_close : ℚ
  official_nav : Option ℚ
  official_pnl : Option ℚ
  settle_status : String
  updated_at : Nat
deriving DecidableEq, Repr

/-- A row of `portfolio_gap_table` (the effective `portfolio_gap_summary`
definition builds its `rows` with the identical per-date construction, only
under the dict keys `est_value`/`off_value`, and then aggregates statistics
over them — the inclusion logic proved about below is shared verbatim). -/
structure PortfolioGapRow where
  date : String
  estimated_value_close : ℚ
  official_value : ℚ
  gap : ℚ
  gap_pct : ℚ
  abs_gap_pct : ℚ
deriving DecidableEq, Repr

/-- The per-item test inside `settled_any`:
`str(x.get("settle_status","")).strip() == "settled" and
_safe_float(x.get("official_nav")) is not None`. -/
def settledWithOfficial (x : LedgerItem) : Bool :=
  strTrim x.settle_status == "settled" && x.official_nav.isSome

/-- Keys of a Python dict populated with `setdefault` in scan order:
first-occurrence order. -/
def firstOccur (l : List String) : List String :=
  l.foldl (fun acc d => if d ∈ acc then acc else acc ++ [d]) []

/-- The `est_total/off_total/est_ok/off_ok` accumulation loop over one date's
bucket.  `estimated_nav_close` is always present in a written ledger row, so
the `if est is not None` guard always passes (`est_ok := true` per item). -/
def portfolioTotals (its : List LedgerItem) : ℚ × ℚ × Bool × Bool :=
  its.foldl
    (fun acc x =>
      let sh := x.shares_end
      let et := acc.1 + sh * x.estimated_nav_close
      match x.official_nav with
      | some off =>
        if strTrim x.settle_status = "settled" then
          (et, acc.2.1 + sh * off, true, true)
        else (et, acc.2.1, true, acc.2.2.2)
      | none => (et, acc.2.1, true, acc.2.2.2))
    (0, 0, false, false)

/-- One date's row of the portfolio gap aggregation: `continue` when no row
of the bucket is settled-with-official, or when the ok-flags/total guard
fails; otherwise emit the gap row. -/
def portfolioRowFor (d : String) (its : List LedgerItem) :
    Option PortfolioGapRow :=
  if its.any settledWithOfficial then
    let t := portfolioTotals its
    let est_total := t.1
    let off_total := t.2.1
    let est_ok := t.2.2.1
    let off_ok := t.2.2.2
    if ¬ (est_ok = true ∧ off_ok = true) ∨ est_total = 0 then none
    else
      let gap := off_total - est_total
      let gap_pct := (off_total / est_total - 1) * 100
      some ⟨d, est_total, off_total, gap, gap_pct, |gap_pct|⟩
  else none

/-- The dates admitted to `by_date` (`if not d or d < cutoff: continue`),
in first-occurrence order.  `cutoff` abbreviates
`(date.today() - timedelta(days=days_back)).isoformat()`. -/
def portfolioDates (cutoff : String) (items : List LedgerItem) : List String :=
  firstOccur ((items.map (fun it => strTrim it.date)).filter
    (fun d => d != "" && !(strLt d cutoff)))

/-- `portfolio_gap_table(days_back)` over explicit ledger items.  A date's
bucket is every item whose stripped date equals it (items of one date pass or
fail the cutoff test together, so this matches the Python grouping), and the
rows are sorted by date at the end. -/
def portfolioGapTable (cutoff : String) (items : List LedgerItem) :
    List PortfolioGapRow :=
  let rows := (portfolioDates cutoff items).filterMap
    (fun d => portfolioRowFor d (items.filter (fun it => strTrim it.date == d)))
  List.insertionSort (fun r1 r2 => strLE r1.date r2.date = true) rows

theorem portfolioRowFor_date {d : String} {its : List LedgerItem}
    {r : PortfolioGapRow} (h : portfolioRowFor d its = some r) : r.date = d := by
  simp only [portfolioRowFor] at h
  split at h
  · split at h
    · exact Option.noConfusion h
    · rw [← Option.some.inj h]
  · exact Option.noConfusion h

/-- C1 counterexample: a date whose bucket holds one settled row (code "A")
and one unsettled row (code "B", `estimated_only`, no official nav) DOES
appear in `portfolio_gap_table` — the aggregation only requires at least one
settled row, so the claim's strict all-settled exclusion is false on the
code.  The unsettled row's shares still inflate the estimated total
(est 200 vs official 100). -/
theorem claim_C1_counterexample :
    (portfolioGapTable "2026-01-01"
      [⟨"2026-02-02", "A", 100, 1, 0, 1, 0, some 1, some 0, "settled", 1⟩,
       ⟨"2026-02-02", "B", 50, 2, 0, 2, 0, none, none, "estimated_only", 1⟩]).map
      (fun r => r.date) = ["2026-02-02"] ∧
    (portfolioGapTable "2026-01-01"
      [⟨"2026-02-02", "A", 100, 1, 0, 1, 0, some 1, some 0, "settled", 1⟩,
       ⟨"2026-02-02", "B", 50, 2, 0, 2, 0, none, none, "estimated_only", 1⟩]).map
      (fun r => r.estimated_value_close) = [200] ∧
    (portfolioGapTable "2026-01-01"
      [⟨"2026-02-02", "A", 100, 1, 0, 1, 0, some 1, some 0, "settled", 1⟩,
       ⟨"2026-02-02", "B", 50, 2, 0, 2, 0, none, none, "estimated_only", 1⟩]).map
      (fun r => r.official_value) = [100] ∧
    settledWithOfficial
      ⟨"2026-02-02", "B", 50, 2, 0, 2, 0, none, none, "estimated_only", 1⟩
      = false := by
  have f1 : strLt "2026-02-02" "2026-01-01" = false := by decide
  have t1 : strTrim "2026-02-02" = "2026-02-02" := by decide
  have t2 : strTrim "settled" = "settled" := by decide
  have t3 : strTrim "estimated_only" = "estimated_only" := by decide
  refine ⟨?_, ?_, ?_, by decide⟩ <;>
    norm_num [portfolioGapTable, portfolioDates, firstOccur, portfolioRowFor,
      portfolioTotals, settledWithOfficial, f1, t1, t2, t3,
      List.insertionSort, List.orderedInsert, List.foldl, List.filterMap,
      List.filter, List.map]

/-- C1 amended: the aggregation excludes a date only when NO row of that date
is settled with an official nav — if every ledger row of date `d` fails the
settled-with-official test, `d` does not appear in `portfolio_gap_table`
(mixed-settlement dates, by the counterexample, are included). -/
theorem claim_C1_amended_no_settled_row_excluded
    (cutoff : String) (items : List LedgerItem) (d : String)
    (h : ∀ it ∈ items, strTrim it.date = d → settledWithOfficial it = false) :
    d ∉ (portfolioGapTable cutoff items).map (fun r => r.date) := by
  intro hmem
  rw [List.mem_map] at hmem
  obtain ⟨r, hr, hdate⟩ := hmem
  simp only [portfolioGapTable, List.mem_insertionSort] at hr
  rw [List.mem_filterMap] at hr
  obtain ⟨d', _, hrow⟩ := hr
  have hd' : d' = d := by rw [← portfolioRowFor_date hrow, hdate]
  subst hd'
  have hany : (items.filter
      (fun it => strTrim it.date == d')).any settledWithOfficial = false := by
    rw [List.any_eq_false]
    intro x hx
    rw [List.mem_filter] at hx
    rw [h x hx.1 (by simpa using hx.2)]
    simp
  simp only [portfolioRowFor, hany] at hrow
  exact Option.noConfusion hrow

/-- Closed witness for the amended C1: a single-date ledger with only an
unsettled row contributes no portfolio gap row. -/
theorem claim_C1_amended_witness :
    "2026-02-02" ∉ (portfolioGapTable "2026-01-01"
      [⟨"2026-02-02", "B", 50, 2, 0, 2, 0, none, none, "estimated_only", 1⟩]).map
      (fun r => r.date) :=
  claim_C1_amended_no_settled_row_excluded "2026-01-01"
    [⟨"2026-02-02", "B", 50, 2, 0, 2, 0, none, none, "estimated_only", 1⟩]
    "2026-02-02" (by intro it hit _; fin_cases hit <;> decide)

/-!
## Valuation router (`services/estimation_service.py`)

The external quote adapters of §6 (`fetch_gsz_quotes`, `get_fund_profile`,
`load_holdings`/`load_holdings_batch`, `fetch_stock_quotes`,
`fetch_official_navs`, `now_iso`) are collaborators outside the core; they
enter the model as the fields of `EstEnv`.  Batched fetching in
`estimate_many` only bounds external calls; per instrument the same lookups
are consulted, which is what the `EstEnv` functions model.
-/

/-- Method constants of `config/constants.py`. -/
def METHOD_OFFICIAL_GSZ : String := "OFFICIAL_GSZ"

def METHOD_ETF_IIV : String := "ETF_IIV"

def METHOD_HOLDING_WEIGHTED : String := "HOLDING_WEIGHTED"

def METHOD_FROZEN_NAV : String := "FROZEN_NAV"

/-- `datasources/fund_api.py::GszQuote`. -/
structure GszQuote where
  code : String
  name : String
  gsz : ℚ
  gszzl : ℚ
  gztime : String
  nav : Option ℚ
deriving DecidableEq, Repr

/-- `domain/fund.py::FundProfile` (the fields the router reads). -/
structure FundProfile where
  code : String
  name : String
  fund_type : String
  is_etf : Bool
  is_qdii : Bool
deriving DecidableEq, Repr

/-- `datasources/market_api.py::StockQuote`. -/
structure StockQuote where
  code : String
  name : String
  price : ℚ
  prev_close : ℚ
  change_pct : ℚ
deriving DecidableEq, Repr

/-- One holdings entry; `weight_pct` stands for the
`it.get("weight_pct") or it.get("weight") or 0.0` lookup. -/
structure Holding where
  code : String
  weight_pct : ℚ
deriving DecidableEq, Repr

structure HoldingsObj where
  as_of : String
  holdings : List Holding
deriving DecidableEq, Repr

/-- `datasources/nav_api.py::OfficialNav`. -/
structure OfficialNav where
  code : String
  nav_date : String
  nav : ℚ
deriving DecidableEq, Repr

/-- `domain/estimate.py::EstimateResult` (floats as exact rationals). -/
structure EstimateResult where
  code : String
  name : String
  est_nav : ℚ
  est_change_pct : ℚ
  method : String
  confidence : ℚ
  est_time : String
  warning : String
  suggested_refresh_sec : Nat
  realtime_coverage_value_pct : Option ℚ := none
deriving DecidableEq, Repr

/-- The external collaborators consumed by the router. -/
structure EstEnv where
  gszQuote : String → Option GszQuote
  profile : String → FundProfile
  holdings : String → Option HoldingsObj
  stockQuote : String → Option StockQuote
  officialNavs : String → List OfficialNav
  nowIso : String

/-- `_latest_official_nav`: last item of `fetch_official_navs(code, 10)`. -/
def latestOfficialNav (env : EstEnv) (code : String) : ℚ × Option String :=
  match (env.officialNavs code).getLast? with
  | none => (0, none)
  | some last => (last.nav, some last.nav_date)

/-- `p.data.isPrefixOf s.data` — `s.startswith(p)` without Lean's
position-based `String.startsWith` (which does not reduce in the kernel). -/
def strStartsWith (s p : String) : Bool := p.data.isPrefixOf s.data

def strDrop (s : String) (n : Nat) : String := ⟨s.data.drop n⟩

/-- `market_api.normalize_stock_code` = `_strip_prefix`: lowercase, strip,
drop a leading `sh`/`sz`/`bj` exchange tag. -/
def normalizeStockCode (code : String) : String :=
  let s := strLower (strTrim code)
  if strStartsWith s "sh" || strStartsWith s "sz" || strStartsWith s "bj" then
    strDrop s 2
  else s

/-- `_estimate_from_gsz`: use the indicative quote whenever its value is
positive (no quote-age check exists anywhere in the router), else freeze to
the quote's last nav (or 0) with confidence 0.3. -/
def estimateFromGsz (code name : String) (q : Option GszQuote)
    (method : String) (nowIso : String) : EstimateResult :=
  match q with
  | some qq =>
    if 0 < qq.gsz then
      { code := code, name := name, est_nav := qq.gsz,
        est_change_pct := qq.gszzl, method := method, confidence := 9/10,
        est_time := qq.gztime, warning := "", suggested_refresh_sec := 10 }
    else
      { code := code, name := name,
        est_nav := match qq.nav with
          | some nv => if 0 < nv then nv else 0
          | none => 0,
        est_change_pct := 0, method := METHOD_FROZEN_NAV, confidence := 3/10,
        est_time := qq.gztime,
        warning := "estimate data unavailable, fallback to last nav",
        suggested_refresh_sec := 60 }
  | none =>
      { code := code, name := name, est_nav := 0, est_change_pct := 0,
        method := METHOD_FROZEN_NAV, confidence := 3/10, est_time := nowIso,
        warning := "estimate data unavailable, fallback to last nav",
        suggested_refresh_sec := 60 }

/-- The confidence ladder of `_estimate_by_holdings`:
`0.75 if coverage >= 80 else 0.55 if coverage >= 50 else 0.35`. -/
def holdingsConfidence (coverage : ℚ) : ℚ :=
  if coverage ≥ 80 then 3/4
  else if coverage ≥ 50 then 11/20
  else 7/20

/-- The warning assembly of `_estimate_by_holdings`: a coverage-low clause
below 60% coverage, then the holdings as-of suffix when known.  The Python
`f"...({coverage:.1f}%)"` float format is rendered as plain
`toString coverage` (the warning's information content is unchanged). -/
def holdingsWarning (coverage : ℚ) (as_of_raw : String) : String :=
  let warning0 :=
    if coverage < 60 then
      "holdings coverage low (" ++ toString coverage ++ "%)"
    else ""
  let as_of := strTrim as_of_raw
  if as_of ≠ "" then
    (if warning0 ≠ "" then warning0 ++ "; holdings as_of " ++ as_of
     else "holdings as_of " ++ as_of)
  else warning0

/-- `_estimate_by_holdings`. -/
def estimateByHoldings (env : EstEnv) (code name : String)
    (hobj : HoldingsObj) (q : Option GszQuote) : Option EstimateResult :=
  if hobj.holdings = [] then none
  else
    let acc := hobj.holdings.foldl
      (fun (acc : ℚ × ℚ × ℚ) it =>
        let w := it.weight_pct
        if w ≤ 0 then acc
        else
          let tw := acc.1 + w
          let scode := normalizeStockCode it.code
          if scode = "" then (tw, acc.2.1, acc.2.2)
          else
            match env.stockQuote scode with
            | none => (tw, acc.2.1, acc.2.2)
            | some sq => (tw, acc.2.1 + w, acc.2.2 + w * sq.change_pct))
      (0, 0, 0)
    let total_weight := acc.1
    let covered_weight := acc.2.1
    let weighted_sum := acc.2.2
    if total_weight ≤ 0 ∨ covered_weight ≤ 0 then none
    else
      let weighted_pct := weighted_sum / total_weight
      let coverage := covered_weight / total_weight * 100
      let base_nav0 : ℚ := match q with
        | some qq =>
          match qq.nav with
          | some nv => if 0 < nv then nv else 0
          | none => 0
        | none => 0
      let base_nav :=
        if base_nav0 ≤ 0 then (latestOfficialNav env code).1 else base_nav0
      if base_nav ≤ 0 then none
      else
        let est_nav := base_nav * (1 + weighted_pct / 100)
        some { code := code, name := name, est_nav := est_nav,
               est_change_pct := weighted_pct,
               method := METHOD_HOLDING_WEIGHTED,
               confidence := holdingsConfidence coverage,
               est_time := env.nowIso,
               warning := holdingsWarning coverage hobj.as_of,
               suggested_refresh_sec := 10,
               realtime_coverage_value_pct := some coverage }

/-- `estimate_one`. -/
def estimateOne (env : EstEnv) (code : String) : Except String EstimateResult :=
  let c := strTrim code
  if c = "" then .error "estimate_one: code is required"
  else
    let q := env.gszQuote c
    let profile := env.profile c
    let name :=
      let n1 := strTrim profile.name
      if n1 ≠ "" then n1
      else
        let n2 := match q with | some qq => qq.name | none => ""
        if n2 ≠ "" then n2 else c
    if profile.is_etf then
      .ok (estimateFromGsz c name q METHOD_ETF_IIV env.nowIso)
    else
      let holdingsObj := if profile.is_qdii then none else env.holdings c
      match holdingsObj with
      | some hobj =>
        if hobj.holdings ≠ [] then
          match estimateByHoldings env c name hobj q with
          | some est => .ok est
          | none => .ok (estimateFromGsz c name q METHOD_OFFICIAL_GSZ env.nowIso)
        else .ok (estimateFromGsz c name q METHOD_OFFICIAL_GSZ env.nowIso)
      | none => .ok (estimateFromGsz c name q METHOD_OFFICIAL_GSZ env.nowIso)

/-- `estimate_many` (result as an association list in input order; the Python
dict collapses duplicate codes, which does not matter for the claims below).
`holdings_map = load_holdings_batch(non_etf_codes)` has no entry for
ETF/QDII codes, hence the `none` for those. -/
def estimateMany (env : EstEnv) (codes : List String) :
    List (String × EstimateResult) :=
  let cs := (codes.map strTrim).filter (fun c => c ≠ "")
  cs.map (fun c =>
    let q := env.gszQuote c
    let profile := env.profile c
    let name :=
      if profile.name ≠ "" then profile.name
      else
        let n2 := match q with | some qq => qq.name | none => ""
        if n2 ≠ "" then n2 else c
    if profile.is_etf then
      (c, estimateFromGsz c name q METHOD_ETF_IIV env.nowIso)
    else
      let hobj := if profile.is_etf || profile.is_qdii then none
        else env.holdings c
      match hobj with
      | some h =>
        match estimateByHoldings env c name h q with
        | some est => (c, est)
        | none => (c, estimateFromGsz c name q METHOD_OFFICIAL_GSZ env.nowIso)
      | none => (c, estimateFromGsz c name q METHOD_OFFICIAL_GSZ env.nowIso))

/-!
### Claim C2 — ETF tier and staleness
-/

/-- C2 counterexample: the router has NO staleness check.  An ETF profile
with an indicative quote whose as-of time is years old (2020, far beyond any
staleness window) and with no official-nav fallback still gets the
direct-quote tier: method `ETF_IIV`, confidence 0.9 — not `FROZEN_NAV`/0.3
as the claim requires for a stale quote. -/
theorem claim_C2_counterexample :
    estimateOne
      { gszQuote := fun _ =>
          some ⟨"510300", "", 51/50, 12/10, "2020-01-01T09:30:00", none⟩,
        profile := fun _ => ⟨"510300", "HS300ETF", "ETF", true, false⟩,
        holdings := fun _ => none,
        stockQuote := fun _ => none,
        officialNavs := fun _ => [],
        nowIso := "2026-02-03T10:00:00" } "510300"
      = .ok { code := "510300", name := "HS300ETF", est_nav := 51/50,
              est_change_pct := 12/10, method := METHOD_ETF_IIV,
              confidence := 9/10, est_time := "2020-01-01T09:30:00",
              warning := "", suggested_refresh_sec := 10 } ∧
    METHOD_ETF_IIV ≠ METHOD_FROZEN_NAV ∧ ((9 : ℚ)/10 ≠ 3/10) := by
  have t1 : strTrim "510300" = "510300" := by decide
  have t2 : strTrim "HS300ETF" = "HS300ETF" := by decide
  refine ⟨?_, by decide, by norm_num⟩
  norm_num [estimateOne, estimateFromGsz, t1, t2]
  simp

/-- C2 amended: for an ETF-like profile `estimate_one` never raises (given a
non-empty code) and selects tiers on the quote's VALUE alone, never its age:
whenever the quote's `gsz` is positive the result is `ETF_IIV` at confidence
0.9 with `est_time` merely copied from the quote (any staleness included);
otherwise the result is `FROZEN_NAV` at confidence 0.3 with zero change. -/
theorem claim_C2_amended_no_staleness_check (env : EstEnv) (code : String)
    (hc : ¬ (strTrim code = ""))
    (hetf : (env.profile (strTrim code)).is_etf = true) :
    ∃ r, estimateOne env code = .ok r ∧
      ((∃ qq, env.gszQuote (strTrim code) = some qq ∧ 0 < qq.gsz ∧
          r.method = METHOD_ETF_IIV ∧ r.confidence = 9/10 ∧
          r.est_nav = qq.gsz ∧ r.est_time = qq.gztime) ∨
       (r.method = METHOD_FROZEN_NAV ∧ r.confidence = 3/10 ∧
          r.est_change_pct = 0)) := by
  simp only [estimateOne, hetf, if_neg hc, if_true]
  refine ⟨_, rfl, ?_⟩
  cases hq : env.gszQuote (strTrim code) with
  | none =>
    right
    exact ⟨rfl, rfl, rfl⟩
  | some qq =>
    by_cases hg : 0 < qq.gsz
    · left
      refine ⟨qq, rfl, hg, ?_⟩
      simp [estimateFromGsz, hg]
    · right
      simp [estimateFromGsz, hg]

/-- An ETF environment whose quote has value 0 and no nav fallback, used by
the C2 witness. -/
def c2WitnessEnv : EstEnv :=
  { gszQuote := fun _ => some ⟨"159915", "", 0, 0, "2026-02-03T09:31:00", none⟩,
    profile := fun _ => ⟨"159915", "CYB ETF", "ETF", true, false⟩,
    holdings := fun _ => none,
    stockQuote := fun _ => none,
    officialNavs := fun _ => [],
    nowIso := "2026-02-03T10:00:00" }

/-- Closed witness for the amended C2: an ETF whose quote has `gsz = 0` and
no nav fallback freezes at confidence 0.3 without raising. -/
theorem claim_C2_witness :
    ∃ r, estimateOne c2WitnessEnv "159915" = .ok r ∧
      ((∃ qq, c2WitnessEnv.gszQuote (strTrim "159915") = some qq ∧
          0 < qq.gsz ∧
          r.method = METHOD_ETF_IIV ∧ r.confidence = 9/10 ∧
          r.est_nav = qq.gsz ∧ r.est_time = qq.gztime) ∨
       (r.method = METHOD_FROZEN_NAV ∧ r.confidence = 3/10 ∧
          r.est_change_pct = 0)) :=
  claim_C2_amended_no_staleness_check c2WitnessEnv "159915"
    (by decide) (by decide)

/-!
### Claim C7 — holdings-weighted confidence tiers and coverage warning
-/

theorem holdingsConfidence_high {c : ℚ} (h : 80 ≤ c) :
    holdingsConfidence c = 3/4 := by
  unfold holdingsConfidence
  rw [if_pos h]

theorem holdingsConfidence_med {c : ℚ} (h1 : 50 ≤ c) (h2 : c < 80) :
    holdingsConfidence c = 11/20 := by
  unfold holdingsConfidence
  rw [if_neg (not_le.mpr h2), if_pos h1]

theorem holdingsConfidence_low {c : ℚ} (h : c < 50) :
    holdingsConfidence c = 7/20 := by
  unfold holdingsConfidence
  rw [if_neg (not_le.mpr (h.trans (by norm_num))), if_neg (not_le.mpr h)]

theorem str_ne_empty_of_length_pos {a : String} (h : 0 < a.length) :
    a ≠ "" := by
  intro he
  rw [he] at h
  exact absurd h (by decide)

theorem holdingsWarning_low {c : ℚ} {as : String} (h : c < 60) :
    holdingsWarning c as = "holdings coverage low (" ++ toString c ++ "%)" ∨
    holdingsWarning c as = "holdings coverage low (" ++ toString c ++ "%)"
      ++ "; holdings as_of " ++ strTrim as := by
  unfold holdingsWarning
  rw [if_pos h]
  by_cases ha : strTrim as ≠ ""
  · rw [if_pos ha]
    have hne : ("holdings coverage low (" ++ toString c ++ "%)") ≠ "" := by
      apply str_ne_empty_of_length_pos
      rw [String.length_append, String.length_append]
      have : 0 < "holdings coverage low (".length := by decide
      omega
    rw [if_pos hne]
    right
    rfl
  · rw [if_neg ha]
    left
    rfl

theorem holdingsWarning_high {c : ℚ} {as : String} (h : ¬ (c < 60)) :
    holdingsWarning c as = "" ∨
    holdingsWarning c as = "holdings as_of " ++ strTrim as := by
  unfold holdingsWarning
  rw [if_neg h]
  by_cases ha : strTrim as ≠ ""
  · rw [if_pos ha, if_neg (by simp)]
    right
    rfl
  · rw [if_neg ha]
    left
    rfl

/-- The tier/warning facts, stated on the literal result record that
`_estimate_by_holdings` builds (any coverage `cv`, any as-of string). -/
theorem holdings_record_cov_props {cv : ℚ} {as code name : String}
    {en ec : ℚ} {et : String} :
    ∃ cov, (({ code := code, name := name, est_nav := en,
               est_change_pct := ec, method := METHOD_HOLDING_WEIGHTED,
               confidence := holdingsConfidence cv, est_time := et,
               warning := holdingsWarning cv as, suggested_refresh_sec := 10,
               realtime_coverage_value_pct := some cv } :
        EstimateResult)).realtime_coverage_value_pct = some cov ∧
      (80 ≤ cov → holdingsConfidence cv = 3/4) ∧
      (50 ≤ cov → cov < 80 → holdingsConfidence cv = 11/20) ∧
      (cov < 50 → holdingsConfidence cv = 7/20) ∧
      (cov < 60 →
        holdingsWarning cv as
          = "holdings coverage low (" ++ toString cov ++ "%)" ∨
        holdingsWarning cv as
          = "holdings coverage low (" ++ toString cov ++ "%)"
            ++ "; holdings as_of " ++ strTrim as) ∧
      (¬ (cov < 60) →
        holdingsWarning cv as = "" ∨
        holdingsWarning cv as = "holdings as_of " ++ strTrim as) :=
  ⟨cv, rfl, fun hc => holdingsConfidence_high hc,
    fun hc1 hc2 => holdingsConfidence_med hc1 hc2,
    fun hc => holdingsConfidence_low hc,
    fun hc => holdingsWarning_low hc,
    fun hc => holdingsWarning_high hc⟩

/-- The 40%-coverage batch scenario environment: a non-ETF, non-QDII fund
whose holdings are 40% one live-quoted stock and 60% an unquoted one. -/
def c7Env : EstEnv :=
  { gszQuote := fun _ => some ⟨"510300", "", 0, 0, "2026-02-03T09:40:00", some 1⟩,
    profile := fun _ => ⟨"510300", "HS300", "index", false, false⟩,
    holdings := fun _ => some ⟨"", [⟨"600000", 40⟩, ⟨"000001", 60⟩]⟩,
    stockQuote := fun c =>
      if c = "600000" then some ⟨"600000", "PF", 51/5, 10, 2⟩ else none,
    officialNavs := fun _ => [],
    nowIso := "2026-02-03T10:00:00" }

/-- C7: whenever the holdings-weighted method produces a result (which
requires covered weight > 0), its confidence is the 0.75 tier iff coverage
≥ 80, the 0.55 tier iff 50 ≤ coverage < 80 and the 0.35 tier iff
coverage < 50, and a warning carrying the coverage-low clause is attached
exactly when coverage < 60 (above 60% the warning is empty or only the
holdings as-of note); and the concrete `estimate_many` batch at 40% coverage
returns the low tier with the coverage warning. -/
theorem claim_C7_coverage_confidence_tiers :
    (∀ (env : EstEnv) (code name : String) (hobj : HoldingsObj)
        (q : Option GszQuote) (r : EstimateResult),
      estimateByHoldings env code name hobj q = some r →
      ∃ cov, r.realtime_coverage_value_pct = some cov ∧
        (80 ≤ cov → r.confidence = 3/4) ∧
        (50 ≤ cov → cov < 80 → r.confidence = 11/20) ∧
        (cov < 50 → r.confidence = 7/20) ∧
        (cov < 60 →
          r.warning = "holdings coverage low (" ++ toString cov ++ "%)" ∨
          r.warning = "holdings coverage low (" ++ toString cov ++ "%)"
            ++ "; holdings as_of " ++ strTrim hobj.as_of) ∧
        (¬ (cov < 60) →
          r.warning = "" ∨
          r.warning = "holdings as_of " ++ strTrim hobj.as_of)) ∧
    estimateMany c7Env ["510300"] =
      [("510300",
        { code := "510300", name := "HS300", est_nav := 126/125,
          est_change_pct := 4/5, method := METHOD_HOLDING_WEIGHTED,
          confidence := 7/20, est_time := "2026-02-03T10:00:00",
          warning := "holdings coverage low (" ++ toString ((40 : ℚ)) ++ "%)",
          suggested_refresh_sec := 10,
          realtime_coverage_value_pct := some 40 })] := by
  constructor
  · intro env code name hobj q r h
    simp only [estimateByHoldings] at h
    split at h
    · exact Option.noConfusion h
    split at h
    · exact Option.noConfusion h
    split at h <;> split at h <;>
      first
        | exact Option.noConfusion h
        | (rw [← Option.some.inj h]; exact holdings_record_cov_props)
  · have s1 : strTrim "510300" = "510300" := by decide
    have s2 : strTrim "" = "" := by decide
    have n1 : normalizeStockCode "600000" = "600000" := by decide
    have n2 : normalizeStockCode "000001" = "000001" := by decide
    norm_num [estimateMany, estimateByHoldings, holdingsConfidence,
      holdingsWarning, c7Env, s1, s2, n1, n2, METHOD_HOLDING_WEIGHTED,
      List.foldl]
    simp
    norm_num

/-- Closed witness for C7's universal part, at the 40%-coverage input. -/
theorem claim_C7_witness :
    ∃ cov,
      (⟨"510300", "HS300", 126/125, 4/5, METHOD_HOLDING_WEIGHTED, 7/20,
        "2026-02-03T10:00:00",
        "holdings coverage low (" ++ toString ((40 : ℚ)) ++ "%)", 10,
        some 40⟩ : EstimateResult).realtime_coverage_value_pct = some cov ∧
      (80 ≤ cov →
        (⟨"510300", "HS300", 126/125, 4/5, METHOD_HOLDING_WEIGHTED, 7/20,
          "2026-02-03T10:00:00",
          "holdings coverage low (" ++ toString ((40 : ℚ)) ++ "%)", 10,
          some 40⟩ : EstimateResult).confidence = 3/4) ∧
      (50 ≤ cov → cov < 80 →
        (⟨"510300", "HS300", 126/125, 4/5, METHOD_HOLDING_WEIGHTED, 7/20,
          "2026-02-03T10:00:00",
          "holdings coverage low (" ++ toString ((40 : ℚ)) ++ "%)", 10,
          some 40⟩ : EstimateResult).confidence = 11/20) ∧
      (cov < 50 →
        (⟨"510300", "HS300", 126/125, 4/5, METHOD_HOLDING_WEIGHTED, 7/20,
          "2026-02-03T10:00:00",
          "holdings coverage low (" ++ toString ((40 : ℚ)) ++ "%)", 10,
          some 40⟩ : EstimateResult).confidence = 7/20) ∧
      (cov < 60 →
        (⟨"510300", "HS300", 126/125, 4/5, METHOD_HOLDING_WEIGHTED, 7/20,
          "2026-02-03T10:00:00",
          "holdings coverage low (" ++ toString ((40 : ℚ)) ++ "%)", 10,
          some 40⟩ : EstimateResult).warning
          = "holdings coverage low (" ++ toString cov ++ "%)" ∨
        (⟨"510300", "HS300", 126/125, 4/5, METHOD_HOLDING_WEIGHTED, 7/20,
          "2026-02-03T10:00:00",
          "holdings coverage low (" ++ toString ((40 : ℚ)) ++ "%)", 10,
          some 40⟩ : EstimateResult).warning
          = "holdings coverage low (" ++ toString cov ++ "%)"
            ++ "; holdings as_of "
            ++ strTrim (⟨"", [⟨"600000", 40⟩, ⟨"000001", 60⟩]⟩ :
              HoldingsObj).as_of) ∧
      (¬ (cov < 60) →
        (⟨"510300", "HS300", 126/125, 4/5, METHOD_HOLDING_WEIGHTED, 7/20,
          "2026-02-03T10:00:00",
          "holdings coverage low (" ++ toString ((40 : ℚ)) ++ "%)", 10,
          some 40⟩ : EstimateResult).warning = "" ∨
        (⟨"510300", "HS300", 126/125, 4/5, METHOD_HOLDING_WEIGHTED, 7/20,
          "2026-02-03T10:00:00",
          "holdings coverage low (" ++ toString ((40 : ℚ)) ++ "%)", 10,
          some 40⟩ : EstimateResult).warning
          = "holdings as_of " ++ strTrim (⟨"",
              [⟨"600000", 40⟩, ⟨"000001", 60⟩]⟩ : HoldingsObj).as_of) :=
  claim_C7_coverage_confidence_tiers.1 c7Env "510300" "HS300"
    ⟨"", [⟨"600000", 40⟩, ⟨"000001", 60⟩]⟩
    (some ⟨"510300", "", 0, 0, "2026-02-03T09:40:00", some 1⟩)
    ⟨"510300", "HS300", 126/125, 4/5, METHOD_HOLDING_WEIGHTED, 7/20,
      "2026-02-03T10:00:00",
      "holdings coverage low (" ++ toString ((40 : ℚ)) ++ "%)", 10, some 40⟩
    (by
      have s2 : strTrim "" = "" := by decide
      have n1 : normalizeStockCode "600000" = "600000" := by decide
      have n2 : normalizeStockCode "000001" = "000001" := by decide
      norm_num [estimateByHoldings, holdingsConfidence, holdingsWarning,
        c7Env, s2, n1, n2, METHOD_HOLDING_WEIGHTED, List.foldl]
      simp
      norm_num)

/-!
## Settlement engine (`services/settlement_service.py`), local-JSON branch

`finalize_estimated_close(date)`:
* snapshots come from `build_positions_as_of(d)` over the journal;
* with no snapshots the `cleaner` deletes every ledger row of the date;
* otherwise rows of the date whose code left the snapshot are dropped, and
  each snapshot is upserted — `_find_item_index` plus `items[idx] = ...`
  is rendered as first-match replacement (same semantics), appending when no
  row matches;
* a row already `settled` keeps `official_nav`, `official_pnl`,
  `settle_status` and both estimated fields, refreshing only the position
  fields and `updated_at`.
-/

def SETTLE_ESTIMATED_ONLY : String := "estimated_only"

def SETTLE_SETTLED : String := "settled"

/-- The fresh payload built for a snapshot `s` on date `d`. -/
def finalizePayload (d : String) (s : PositionSnapshot) (est_nav : ℚ)
    (now : Nat) : LedgerItem :=
  let cost := s.shares_end * s.avg_cost_nav_end
  let est_value := s.shares_end * est_nav
  let est_pnl := est_value - cost + s.realized_pnl_end
  { date := d, code := s.code, shares_end := s.shares_end,
    avg_cost_nav_end := s.avg_cost_nav_end,
    realized_pnl_end := s.realized_pnl_end,
    estimated_nav_close := est_nav, estimated_pnl_close := est_pnl,
    official_nav := none, official_pnl := none,
    settle_status := SETTLE_ESTIMATED_ONLY, updated_at := now }

/-- Upsert of one snapshot: replace the first `(date, code)` match (position
fields only when that row is settled, the whole payload otherwise), append
when there is none. -/
def applySnapshotRow (d : String) (estNav : String → Option ℚ) (now : Nat)
    (s : PositionSnapshot) : List LedgerItem → List LedgerItem
  | [] => [finalizePayload d s ((estNav s.code).getD 0) now]
  | it :: rest =>
    if it.date = d ∧ it.code = s.code then
      (if it.settle_status = SETTLE_SETTLED then
        { it with shares_end := s.shares_end,
                  avg_cost_nav_end := s.avg_cost_nav_end,
                  realized_pnl_end := s.realized_pnl_end,
                  updated_at := now }
       else finalizePayload d s ((estNav s.code).getD 0) now) :: rest
    else it :: applySnapshotRow d estNav now s rest

/-- `finalize_estimated_close(d)` acting on the decoded
`daily_ledger.json::items`. -/
def finalizeEstimatedClose (env : EstEnv) (journal : List AdjEntry)
    (d : String) (now : Nat) (items : List LedgerItem) : List LedgerItem :=
  let snapshots := buildPositionsAsOf d journal
  if snapshots = [] then
    items.filter (fun it => !(strTrim it.date == d))
  else
    let codes := snapshots.map (fun s => s.code)
    let est_map := estimateMany env codes
    let estNav := fun c => (est_map.lookup c).map (fun e => e.est_nav)
    let items1 := items.filter
      (fun it => !(strTrim it.date == d && !(codes.contains (strTrim it.code))))
    snapshots.foldl (fun acc s => applySnapshotRow d estNav now s acc) items1

/-- The `(date, code)` selector used in the C3 statements. -/
def ledgerRowsFor (d c : String) (l : List LedgerItem) : List LedgerItem :=
  l.filter (fun x => x.date == d && x.code == c)

/-- The fields C3 says a settled row keeps across `finalize_estimated_close`:
date, code, both official fields, settled status, both estimated fields —
everything except the position fields and `updated_at`. -/
def preservesSettledFields (it r : LedgerItem) : Prop :=
  r.date = it.date ∧ r.code = it.code ∧
  r.official_nav = it.official_nav ∧ r.official_pnl = it.official_pnl ∧
  r.settle_status = SETTLE_SETTLED ∧
  r.estimated_nav_close = it.estimated_nav_close ∧
  r.estimated_pnl_close = it.estimated_pnl_close

theorem rows_cons (d c : String) (y : LedgerItem) (l : List LedgerItem) :
    ledgerRowsFor d c (y :: l)
      = if (y.date == d && y.code == c) = true then y :: ledgerRowsFor d c l
        else ledgerRowsFor d c l := by
  simp [ledgerRowsFor, List.filter_cons]

theorem rows_cons_false {d c : String} {y : LedgerItem} (l : List LedgerItem)
    (h : (y.date == d && y.code == c) = false) :
    ledgerRowsFor d c (y :: l) = ledgerRowsFor d c l := by
  rw [rows_cons, if_neg]
  rw [h]
  decide

theorem applySnapshotRow_other_code (d : String) (estNav : String → Option ℚ)
    (now : Nat) (s : PositionSnapshot) (c : String) (hc : s.code ≠ c) :
    ∀ l : List LedgerItem,
      ledgerRowsFor d c (applySnapshotRow d estNav now s l)
        = ledgerRowsFor d c l
  | [] => by
    simp only [applySnapshotRow]
    rw [rows_cons_false [] (by simp [finalizePayload, hc])]
  | x :: rest => by
    simp only [applySnapshotRow]
    split
    · rename_i hx
      have hxcode : x.code ≠ c := by rw [hx.2]; exact hc
      split
      · rw [rows_cons_false rest (by simp [hxcode]),
          rows_cons_false rest (by simp [hxcode])]
      · rw [rows_cons_false rest (by simp [finalizePayload, hc]),
          rows_cons_false rest (by simp [hxcode])]
    · rw [rows_cons, rows_cons,
        applySnapshotRow_other_code d estNav now s c hc rest]

theorem applySnapshotRow_same_code (d : String) (estNav : String → Option ℚ)
    (now : Nat) (s : PositionSnapshot) (c : String) (hc : s.code = c)
    (u : LedgerItem) (hu_date : u.date = d) (hu_code : u.code = c)
    (hu_settled : u.settle_status = SETTLE_SETTLED) :
    ∀ l : List LedgerItem, ledgerRowsFor d c l = [u] →
      ledgerRowsFor d c (applySnapshotRow d estNav now s l)
        = [{ u with shares_end := s.shares_end,
                    avg_cost_nav_end := s.avg_cost_nav_end,
                    realized_pnl_end := s.realized_pnl_end,
                    updated_at := now }]
  | [], h => by simp [ledgerRowsFor] at h
  | x :: rest, h => by
    by_cases hp : (x.date == d && x.code == c) = true
    · rw [rows_cons, if_pos hp] at h
      simp only [List.cons.injEq] at h
      obtain ⟨hx, hrest⟩ := h
      have hpe := Bool.and_eq_true_iff.mp hp
      have hxd : x.date = d := by simpa using hpe.1
      have hxc : x.code = c := by simpa using hpe.2
      have hmatch : x.date = d ∧ x.code = s.code := ⟨hxd, by rw [hxc, hc]⟩
      simp only [applySnapshotRow, if_pos hmatch]
      rw [if_pos (by rw [hx]; exact hu_settled)]
      rw [rows_cons, if_pos (by simp [hxd, hxc]), hrest, hx]
    · have hpf : (x.date == d && x.code == c) = false :=
        Bool.eq_false_iff.mpr hp
      rw [rows_cons_false rest hpf] at h
      have hnm : ¬ (x.date = d ∧ x.code = s.code) := by
        intro hm
        apply hp
        simp [hm.1, hc ▸ hm.2]
      simp only [applySnapshotRow, if_neg hnm]
      rw [rows_cons_false _ hpf]
      exact applySnapshotRow_same_code d estNav now s c hc u hu_date hu_code
        hu_settled rest h

theorem finalize_fold_preserves (d : String) (estNav : String → Option ℚ)
    (now : Nat) (c : String) (it : LedgerItem) (hdate : it.date = d)
    (hcode : it.code = c) :
    ∀ (snaps : List PositionSnapshot) (l : List LedgerItem) (u : LedgerItem),
      ledgerRowsFor d c l = [u] → preservesSettledFields it u →
      ∃ u', ledgerRowsFor d c
          (snaps.foldl (fun acc s => applySnapshotRow d estNav now s acc) l)
            = [u'] ∧
        preservesSettledFields it u'
  | [], _, u, h, q => ⟨u, h, q⟩
  | s :: rest, l, u, h, q => by
    simp only [List.foldl_cons]
    by_cases hsc : s.code = c
    · have h2 := applySnapshotRow_same_code d estNav now s c hsc u
        (q.1.trans hdate) (q.2.1.trans hcode) q.2.2.2.2.1 l h
      exact finalize_fold_preserves d estNav now c it hdate hcode rest _ _ h2 q
    · have h2 := applySnapshotRow_other_code d estNav now s c hsc l
      exact finalize_fold_preserves d estNav now c it hdate hcode rest _ u
        (h2.trans h) q

/-- C3 counterexample: a `(date, code)` row that is already `settled` is
DELETED outright by `finalize_estimated_close(date)` when its instrument no
longer appears in that date's snapshot (the stale-row cleanup), losing its
official fields — so the claim's unconditional preservation is false. -/
theorem claim_C3_counterexample :
    ledgerRowsFor "2026-02-02" "XX9999"
      (finalizeEstimatedClose
        { gszQuote := fun _ => some ⟨"YY0001", "", 1, 0, "2026-02-02T15:00:00", none⟩,
          profile := fun _ => ⟨"YY0001", "Yfund", "ETF", true, false⟩,
          holdings := fun _ => none,
          stockQuote := fun _ => none,
          officialNavs := fun _ => [],
          nowIso := "2026-02-02T15:00:01" }
        [⟨"b1", "BUY", "YY0001", "2026-02-02", 100, 1, 0, "", "manual", 1⟩]
        "2026-02-02" 9
        [⟨"2026-02-02", "XX9999", 10, 1, 0, 1, 0, some 1, some 0,
          "settled", 5⟩]) = [] ∧
    (⟨"2026-02-02", "XX9999", 10, 1, 0, 1, 0, some 1, some 0, "settled", 5⟩ :
      LedgerItem).settle_status = SETTLE_SETTLED := by
  have t1 : strTrim "2026-02-02" = "2026-02-02" := by decide
  have t2 : strTrim "XX9999" = "XX9999" := by decide
  have t3 : strTrim "YY0001" = "YY0001" := by decide
  have f1 : strLt "2026-02-02" "2026-02-02" = false := by decide
  refine ⟨?_, by decide⟩
  norm_num [finalizeEstimatedClose, buildPositionsAsOf, buildPositionsAsOfSafe,
    listAdjustments, replayFold, replayStep, snapshotKeys, dget, dset, oneE9,
    List.insertionSort, List.orderedInsert, List.dedup, List.pwFilter,
    strLE, f1, t1, t2, t3, estimateMany, estimateFromGsz, METHOD_ETF_IIV,
    applySnapshotRow, finalizePayload, ledgerRowsFor, SETTLE_ESTIMATED_ONLY,
    List.foldl, List.filter, List.filterMap, List.map]
  simp

/-- C3 amended: provided the instrument is still present in the date's
snapshot, a `settled` ledger row survives every further
`finalize_estimated_close(date)` call with its official_nav, official_pnl,
settle status and both estimated close fields unchanged — only the position
fields and `updated_at` may be refreshed.  (A settled row whose instrument
left the snapshot is deleted instead, per the counterexample.) -/
theorem claim_C3_amended_settled_row_preserved (env : EstEnv)
    (journal : List AdjEntry) (d : String) (now : Nat)
    (items : List LedgerItem) (it : LedgerItem)
    (hdate : it.date = d)
    (hsettled : it.settle_status = SETTLE_SETTLED)
    (hclean_d : strTrim d = d)
    (hclean_code : strTrim it.code = it.code)
    (huniq : ledgerRowsFor d it.code items = [it])
    (hin : it.code ∈ (buildPositionsAsOf d journal).map
      (fun s => s.code)) :
    ∃ r, ledgerRowsFor d it.code
        (finalizeEstimatedClose env journal d now items) = [r] ∧
      preservesSettledFields it r := by
  simp only [finalizeEstimatedClose]
  have hsnap : ¬ (buildPositionsAsOf d journal = []) := by
    intro h0
    rw [h0] at hin
    simp at hin
  rw [if_neg hsnap]
  have hrows1 : ledgerRowsFor d it.code
      (items.filter (fun x => !(strTrim x.date == d &&
        !((buildPositionsAsOf d journal).map (fun s => s.code)|>.contains
          (strTrim x.code))))) = [it] := by
    unfold ledgerRowsFor
    rw [List.filter_filter]
    rw [← huniq]
    unfold ledgerRowsFor
    apply List.filter_congr
    intro x _
    by_cases hpx : (x.date == d && x.code == it.code) = true
    · rw [hpx]
      have hxd : x.date = d := by
        simpa using (Bool.and_eq_true_iff.mp hpx).1
      have hxc : x.code = it.code := by
        simpa using (Bool.and_eq_true_iff.mp hpx).2
      simp only [Bool.true_and, Bool.and_eq_true]
      rw [hxd, hclean_d, hxc, hclean_code]
      simpa using hin
    · rw [Bool.eq_false_iff.mpr hpx]
      simp
  exact finalize_fold_preserves d _ now it.code it hdate rfl
    (buildPositionsAsOf d journal) _ it hrows1
    ⟨rfl, rfl, rfl, rfl, hsettled, rfl, rfl⟩

/-- Closed witness for the amended C3: one settled row whose instrument is
still in the snapshot keeps its official fields. -/
theorem claim_C3_witness :
    ∃ r, ledgerRowsFor "2026-02-02" "YY0001"
        (finalizeEstimatedClose
          { gszQuote := fun _ =>
              some ⟨"YY0001", "", 1, 0, "2026-02-02T15:00:00", none⟩,
            profile := fun _ => ⟨"YY0001", "Yfund", "ETF", true, false⟩,
            holdings := fun _ => none,
            stockQuote := fun _ => none,
            officialNavs := fun _ => [],
            nowIso := "2026-02-02T15:00:01" }
          [⟨"b1", "BUY", "YY0001", "2026-02-02", 100, 1, 0, "", "manual", 1⟩]
          "2026-02-02" 9
          [⟨"2026-02-02", "YY0001", 10, 1, 0, 1, 0, some 1, some 0,
            "settled", 5⟩]) = [r] ∧
      preservesSettledFields
        ⟨"2026-02-02", "YY0001", 10, 1, 0, 1, 0, some 1, some 0,
          "settled", 5⟩ r := by
  have h := claim_C3_amended_settled_row_preserved
    { gszQuote := fun _ =>
        some ⟨"YY0001", "", 1, 0, "2026-02-02T15:00:00", none⟩,
      profile := fun _ => ⟨"YY0001", "Yfund", "ETF", true, false⟩,
      holdings := fun _ => none,
      stockQuote := fun _ => none,
      officialNavs := fun _ => [],
      nowIso := "2026-02-02T15:00:01" }
    [⟨"b1", "BUY", "YY0001", "2026-02-02", 100, 1, 0, "", "manual", 1⟩]
    "2026-02-02" 9
    [⟨"2026-02-02", "YY0001", 10, 1, 0, 1, 0, some 1, some 0, "settled", 5⟩]
    ⟨"2026-02-02", "YY0001", 10, 1, 0, 1, 0, some 1, some 0, "settled", 5⟩
    rfl rfl (by decide) (by decide) (by decide) (by
      have f1 : strLt "2026-02-02" "2026-02-02" = false := by decide
      norm_num [buildPositionsAsOf, buildPositionsAsOfSafe, listAdjustments,
        replayFold, replayStep, snapshotKeys, dget, dset, oneE9,
        List.insertionSort, List.orderedInsert, List.dedup, List.pwFilter,
        strLE, f1, List.foldl, List.filter, List.filterMap, List.map])
  exact h

/-!
## Intraday series (`services/intraday_service.py`)

One day's file `data/intraday/<date>.json` holds `series : target → points`.
A point records `t` plus optional `marker`, estimate payload and portfolio
payload — exactly the keys `record_intraday_point` writes.  `_now_hhmmss()`
enters as the `nowT` parameter.  `get_intraday_series` raises on an empty
(stripped) target; the Bool-valued `intradayHasCloseMarker` below is its
composition with the marker scan, used under that validity contract.
-/

structure PortfolioViewPoint where
  total_est_value : ℚ
  total_est_pnl : ℚ
  total_est_pnl_pct : ℚ
  realtime_coverage_value_pct : ℚ
deriving DecidableEq, Repr

structure IntradayPoint where
  t : String
  marker : Option String
  est : Option EstimateResult
  pf : Option PortfolioViewPoint
deriving DecidableEq, Repr

abbrev IntradaySeries := List (String × List IntradayPoint)

/-- `series.get(target, [])`. -/
def sget : IntradaySeries → String → List IntradayPoint
  | [], _ => []
  | p :: rest, k => if p.1 = k then p.2 else sget rest k

/-- `series[target] = points`. -/
def sset : IntradaySeries → String → List IntradayPoint → IntradaySeries
  | [], k, v => [(k, v)]
  | p :: rest, k, v => if p.1 = k then (k, v) :: rest else p :: sset rest k v

theorem sget_sset_same (s : IntradaySeries) (k : String)
    (v : List IntradayPoint) : sget (sset s k v) k = v := by
  induction s with
  | nil => simp [sget, sset]
  | cons p rest ih =>
    by_cases hp : p.1 = k
    · simp [sget, sset, hp]
    · simp [sget, sset, hp, ih]

/-- `record_intraday_point`: append one point to the target's series. -/
def recordIntradayPoint (series : IntradaySeries) (target : String)
    (est : Option EstimateResult) (pv : Option PortfolioViewPoint)
    (marker : Option String) (nowT : String) :
    Except String IntradaySeries :=
  let tgt := strTrim target
  if tgt = "" then .error "target is required"
  else
    let points := sget series tgt
    .ok (sset series tgt (points ++ [⟨nowT, marker, est, pv⟩]))

/-- The per-point test `str(it.get("marker","")) == "CLOSE"`. -/
def isClosePoint (p : IntradayPoint) : Bool := p.marker.getD "" == "CLOSE"

/-- `intraday_has_close_marker`: scan ONLY the last 200 points
(`tail = pts[-200:]`) for a CLOSE marker. -/
def intradayHasCloseMarker (series : IntradaySeries) (target : String) :
    Bool :=
  let pts := sget series (strTrim target)
  let tail := if pts.length > 200 then pts.drop (pts.length - 200) else pts
  tail.any isClosePoint

/-- `intraday_append_close_marker`: no-op (returns `{}` without writing)
when the existence check fires, else record a `marker="CLOSE"` point. -/
def intradayAppendCloseMarker (series : IntradaySeries) (target : String)
    (est : Option EstimateResult) (pv : Option PortfolioViewPoint)
    (nowT : String) : Except String IntradaySeries :=
  if intradayHasCloseMarker series target then .ok series
  else recordIntradayPoint series target est pv (some "CLOSE") nowT

/-- Number of CLOSE-marker points of a target on the date. -/
def closeCount (series : IntradaySeries) (target : String) : Nat :=
  (sget series (strTrim target)).countP isClosePoint

set_option maxRecDepth 10000 in
/-- C9 counterexample: with a CLOSE marker followed by 200 ordinary points,
the bounded 200-point scan misses the marker, `intraday_has_close_marker`
reports `false`, and `intraday_append_close_marker` appends a SECOND close
marker — the at-most-once property fails for this call sequence. -/
theorem claim_C9_counterexample :
    intradayHasCloseMarker
      [("510300", ⟨"15:00:00", some "CLOSE", none, none⟩ ::
        List.replicate 200 ⟨"15:01:00", none, none, none⟩)] "510300"
      = false ∧
    closeCount
      [("510300", ⟨"15:00:00", some "CLOSE", none, none⟩ ::
        List.replicate 200 ⟨"15:01:00", none, none, none⟩)] "510300" = 1 ∧
    ∃ s', intradayAppendCloseMarker
      [("510300", ⟨"15:00:00", some "CLOSE", none, none⟩ ::
        List.replicate 200 ⟨"15:01:00", none, none, none⟩)] "510300"
      none none "15:02:00" = .ok s' ∧
      closeCount s' "510300" = 2 := by
  refine ⟨by decide, by decide, ⟨_, rfl, ?_⟩⟩
  decide

/-- C9 amended: the close-marker append is idempotent only through its
bounded existence check — (a) when `intraday_has_close_marker` is true
(a CLOSE lies within the last 200 points) the append writes nothing;
(b) ordinary `record_intraday_point` calls (no marker) never change the
close count; (c) one `intraday_append_close_marker` call adds at most one
close marker.  At-most-once per (date, target) therefore holds for every
call sequence in which no close marker ever has 200 or more points recorded
after it — and can be violated otherwise (see the counterexample). -/
theorem claim_C9_amended_bounded_idempotence :
    (∀ (series : IntradaySeries) (target : String)
        (est : Option EstimateResult) (pv : Option PortfolioViewPoint)
        (nowT : String),
      intradayHasCloseMarker series target = true →
      intradayAppendCloseMarker series target est pv nowT = .ok series) ∧
    (∀ (series : IntradaySeries) (target : String)
        (est : Option EstimateResult) (pv : Option PortfolioViewPoint)
        (nowT : String) (s' : IntradaySeries),
      recordIntradayPoint series target est pv none nowT = .ok s' →
      closeCount s' target = closeCount series target) ∧
    (∀ (series : IntradaySeries) (target : String)
        (est : Option EstimateResult) (pv : Option PortfolioViewPoint)
        (nowT : String) (s' : IntradaySeries),
      intradayAppendCloseMarker series target est pv nowT = .ok s' →
      closeCount s' target ≤ closeCount series target + 1) := by
  have hrec : ∀ (series : IntradaySeries) (target : String)
      (est : Option EstimateResult) (pv : Option PortfolioViewPoint)
      (marker : Option String) (nowT : String) (s' : IntradaySeries),
      recordIntradayPoint series target est pv marker nowT = .ok s' →
      closeCount s' target = closeCount series target
        + (if isClosePoint ⟨nowT, marker, est, pv⟩ then 1 else 0) := by
    intro series target est pv marker nowT s' h
    simp only [recordIntradayPoint] at h
    split at h
    · exact Except.noConfusion h
    · have := Except.ok.inj h
      rw [← this]
      unfold closeCount
      rw [sget_sset_same, List.countP_append]
      simp [List.countP, List.countP.go]
  refine ⟨?_, ?_, ?_⟩
  · intro series target est pv nowT h
    unfold intradayAppendCloseMarker
    rw [if_pos h]
  · intro series target est pv nowT s' h
    have h2 := hrec series target est pv none nowT s' h
    simpa [isClosePoint] using h2
  · intro series target est pv nowT s' h
    unfold intradayAppendCloseMarker at h
    split at h
    · rw [← Except.ok.inj h]
      omega
    · have h2 := hrec series target est pv (some "CLOSE") nowT s' h
      simp [isClosePoint] at h2
      omega

/-- Closed witness for the amended C9 at concrete inputs: an in-window CLOSE
marker suppresses the append; a markerless sample keeps the count; an append
adds at most one. -/
theorem claim_C9_witness :
    intradayAppendCloseMarker
      [("510300", [⟨"15:00:00", some "CLOSE", none, none⟩])] "510300"
      none none "15:02:00"
      = .ok [("510300", [⟨"15:00:00", some "CLOSE", none, none⟩])] ∧
    closeCount
      [("510300", [⟨"14:00:00", none, none, none⟩,
        ⟨"14:01:00", none, none, none⟩])] "510300"
      = closeCount [("510300", [⟨"14:00:00", none, none, none⟩])] "510300" ∧
    closeCount [("510300", [⟨"15:00:00", some "CLOSE", none, none⟩])] "510300"
      ≤ closeCount ([] : IntradaySeries) "510300" + 1 :=
  ⟨claim_C9_amended_bounded_idempotence.1
      [("510300", [⟨"15:00:00", some "CLOSE", none, none⟩])] "510300"
      none none "15:02:00" (by decide),
    claim_C9_amended_bounded_idempotence.2.1
      [("510300", [⟨"14:00:00", none, none, none⟩])] "510300"
      none none "14:01:00"
      [("510300", [⟨"14:00:00", none, none, none⟩,
        ⟨"14:01:00", none, none, none⟩])] rfl,
    claim_C9_amended_bounded_idempotence.2.2
      ([] : IntradaySeries) "510300" none none "15:00:00"
      [("510300", [⟨"15:00:00", some "CLOSE", none, none⟩])] rfl⟩

/-!
## Edit bridge (`services/edit_bridge_service.py`) and
`remove_adjustments_by_code_date` / `migrate_ui_edit_source`
(`services/adjustment_service.py`), local-JSON branch.

`uuid4().hex` is stood in by `idString clock`; `_now_iso()` by the clock.
The `old_ui_items` capture and the `except` rollback of
`apply_position_edit` serve only the failure path; in this pure model every
internal `add_adjustment` call satisfies its validations (shown in the C4
proof), so the rollback is unreachable and not modelled.
-/

/-- Substring test (`pat in s` for Python strings), structurally recursive. -/
def clContains : List Char → List Char → Bool
  | [], pat => pat.isEmpty
  | l@(_ :: rest), pat => pat.isPrefixOf l || clContains rest pat

def strContains (s pat : String) : Bool := clContains s.data pat.data

/-- `str(it.get("source","manual")).strip().lower() or "manual"`. -/
def srcOf (e : AdjEntry) : String :=
  let s := strLower (strTrim e.source)
  if s = "" then "manual" else s

/-- `_looks_like_ui_edit` / `_is_ui_edit_item` (identical in both files). -/
def looksLikeUiEdit (e : AdjEntry) : Bool :=
  let src := strLower (strTrim e.source)
  if src == "ui_edit" then true
  else
    let note := strLower (strTrim e.note)
    if note == "" then false
    else
      strContains note "[ui_edit]" || strStartsWith note "edit->" ||
      strStartsWith note "ui_edit" || strStartsWith note "ui edit" ||
      (strStartsWith note "ui" &&
        (strContains note "edit" || strContains note "编辑"))

/-- The per-item action of `migrate_ui_edit_source`'s updater. -/
def mfun (c d : String) (it : AdjEntry) : AdjEntry :=
  if c ≠ "" ∧ strTrim it.code ≠ c then it
  else if d ≠ "" ∧ strTrim it.effective_date ≠ d then it
  else if strLower (strTrim it.source) == "ui_edit" then it
  else if looksLikeUiEdit it then { it with source := "ui_edit" } else it

/-- `migrate_ui_edit_source(code, effective_date)` (local JSON branch). -/
def migrateUiEditSource (code effective_date : String)
    (journal : List AdjEntry) : List AdjEntry :=
  journal.map (mfun (strTrim code) (strTrim effective_date))

/-- The row test of `remove_adjustments_by_code_date`'s updater, for
`source = "ui_edit"`. -/
def uiEditRowOf (c d : String) (e : AdjEntry) : Bool :=
  strTrim e.code == c && strTrim e.effective_date == d &&
    (srcOf e == "ui_edit")

/-- `remove_adjustments_by_code_date(code, effective_date, source)`:
the `source="ui_edit"` case first backfills sources via the migration, then
deletes the matching rows. -/
def removeAdjustmentsByCodeDate (code effective_date source : String)
    (journal : List AdjEntry) : Except String (List AdjEntry) :=
  let c := strTrim code
  let d := strTrim effective_date
  let src := strLower (strTrim source)
  if c = "" then .error "code is required"
  else if d = "" then .error "effective_date is required"
  else
    let j1 := if src == "ui_edit" then migrateUiEditSource c d journal
      else journal
    .ok (j1.filter (fun it =>
      !(strTrim it.code == c && strTrim it.effective_date == d &&
        (src == "" || srcOf it == src))))

/-- Stand-in for `uuid.uuid4().hex`. -/
def idString (n : Nat) : String := "uid" ++ toString n

/-- Modelled from the shape of `datetime.date.fromisoformat`: the
`apply_position_edit` date validation accepts only non-empty, unpadded
strings (real ISO dates satisfy this; malformed ones raise). -/
def isValidDateStr (s : String) : Bool := s ≠ "" && strTrim s == s

/-- `_get_snapshot_map(d).get(code, default)["shares_end"]`. -/
def snapshotShares (d code : String) (journal : List AdjEntry) : ℚ :=
  match (buildPositionsAsOf d journal).find? (fun s => s.code == code) with
  | some s => s.shares_end
  | none => 0

/-- `_get_snapshot_map(d).get(code, default)["realized_pnl_end"]`. -/
def snapshotRealized (d code : String) (journal : List AdjEntry) : ℚ :=
  match (buildPositionsAsOf d journal).find? (fun s => s.code == code) with
  | some s => s.realized_pnl_end
  | none => 0

/-- `apply_position_edit` over an explicit journal and clock; returns the
new journal with the advanced clock. -/
def applyPositionEdit (effective_date code : String)
    (shares_end avg_cost_nav_end realized_pnl_end : ℚ) (note : Option String)
    (journal : List AdjEntry) (clock : Nat) :
    Except String (List AdjEntry × Nat) :=
  let c := strTrim code
  if c = "" then .error "code is required"
  else if shares_end < 0 then .error "shares_end must be >= 0"
  else if avg_cost_nav_end < 0 then .error "avg_cost_nav_end must be >= 0"
  else if isValidDateStr effective_date = false then .error "invalid date"
  else
    match removeAdjustmentsByCodeDate c effective_date "ui_edit" journal with
    | .error e => .error e
    | .ok j1 =>
      let baseSh := snapshotShares effective_date c j1
      let delta := shares_end - baseSh
      let price := if 0 < avg_cost_nav_end then avg_cost_nav_end else 1
      let step1 : Except String (List AdjEntry × Nat) :=
        if oneE9 < |delta| then
          if 0 < delta then
            match addAdjustment j1 "BUY" c effective_date delta price 0
              (some (note.getD "edit->BUY")) (some "ui_edit")
              (idString clock) clock with
            | .error e => .error e
            | .ok j => .ok (j, clock + 1)
          else
            match addAdjustment j1 "SELL" c effective_date (|delta|) price 0
              (some (note.getD "edit->SELL")) (some "ui_edit")
              (idString clock) clock with
            | .error e => .error e
            | .ok j => .ok (j, clock + 1)
        else .ok (j1, clock)
      match step1 with
      | .error e => .error e
      | .ok (j2, clock2) =>
        let curReal := snapshotRealized effective_date c j2
        let deltaReal := realized_pnl_end - curReal
        if oneE6 < |deltaReal| then
          match addAdjustment j2 "CASH_ADJ" c effective_date 0 0 deltaReal
            (some (note.getD "edit->CASH_ADJ")) (some "ui_edit")
            (idString clock2) clock2 with
          | .error e => .error e
          | .ok j => .ok (j, clock2 + 1)
        else .ok (j2, clock2)

/-- Count of Edit-Bridge rows for one `(code, date)`. -/
def countUiEdit (c d : String) (j : List AdjEntry) : Nat :=
  (j.filter (uiEditRowOf c d)).length

/-! ### C4 lemma layer: the migration is idempotent, removal is stable -/

theorem mfun_idem (c d : String) (e : AdjEntry) :
    mfun c d (mfun c d e) = mfun c d e := by
  by_cases h1 : c ≠ "" ∧ strTrim e.code ≠ c
  · simp only [mfun, if_pos h1]
  · by_cases h2 : d ≠ "" ∧ strTrim e.effective_date ≠ d
    · simp only [mfun, if_neg h1, if_pos h2]
    · by_cases h3 : (strLower (strTrim e.source) == "ui_edit") = true
      · simp only [mfun, if_neg h1, if_neg h2, if_pos h3]
      · by_cases h4 : looksLikeUiEdit e = true
        · simp only [mfun, if_neg h1, if_neg h2, if_neg h3, if_pos h4]
          rw [if_pos (show (strLower (strTrim "ui_edit")
            == "ui_edit") = true from by decide)]
        · simp only [mfun, if_neg h1, if_neg h2, if_neg h3, if_neg h4]

theorem map_mfun_fixed (c d : String) :
    ∀ l : List AdjEntry, (∀ x ∈ l, mfun c d x = x) → l.map (mfun c d) = l
  | [], _ => rfl
  | x :: rest, h => by
    rw [List.map_cons, h x (by simp),
      map_mfun_fixed c d rest (fun y hy => h y (by simp [hy]))]

/-- `add_adjustment` success shape for a BUY written by the edit bridge. -/
theorem addAdjustment_BUY_ok (j : List AdjEntry) (c d : String)
    (sh pr ca : ℚ) (n nid : String) (now : Nat)
    (hc : ¬ (strTrim c = "")) (hd : ¬ (strTrim d = ""))
    (hsh : 0 < sh) (hpr : 0 < pr) :
    addAdjustment j "BUY" c d sh pr ca (some n) (some "ui_edit") nid now
      = .ok (j ++ [⟨nid, "BUY", strTrim c, strTrim d, sh, pr, ca, n,
          "ui_edit", now⟩]) := by
  simp only [addAdjustment]
  rw [show strUpper (strTrim "BUY") = "BUY" from by decide]
  rw [show strLower (strTrim (match (some "ui_edit" : Option String) with
    | none => "manual"
    | some s => if s = "" then "manual" else s)) = "ui_edit" from by decide]
  rw [if_neg (not_not_intro (Or.inl rfl)), if_neg hc, if_neg hd,
    if_neg (not_not_intro (Or.inr rfl)),
    if_neg (show ¬ ((("BUY" : String) = "BUY" ∨ ("BUY" : String) = "SELL")
      ∧ sh ≤ 0) from fun h => absurd h.2 (not_le.mpr hsh)),
    if_neg (show ¬ ((("BUY" : String) = "BUY" ∨ ("BUY" : String) = "SELL")
      ∧ pr ≤ 0) from fun h => absurd h.2 (not_le.mpr hpr))]
  rfl

/-- `add_adjustment` success shape for a SELL written by the edit bridge. -/
theorem addAdjustment_SELL_ok (j : List AdjEntry) (c d : String)
    (sh pr ca : ℚ) (n nid : String) (now : Nat)
    (hc : ¬ (strTrim c = "")) (hd : ¬ (strTrim d = ""))
    (hsh : 0 < sh) (hpr : 0 < pr) :
    addAdjustment j "SELL" c d sh pr ca (some n) (some "ui_edit") nid now
      = .ok (j ++ [⟨nid, "SELL", strTrim c, strTrim d, sh, pr, ca, n,
          "ui_edit", now⟩]) := by
  simp only [addAdjustment]
  rw [show strUpper (strTrim "SELL") = "SELL" from by decide]
  rw [show strLower (strTrim (match (some "ui_edit" : Option String) with
    | none => "manual"
    | some s => if s = "" then "manual" else s)) = "ui_edit" from by decide]
  rw [if_neg (not_not_intro (Or.inr (Or.inl rfl))), if_neg hc, if_neg hd,
    if_neg (not_not_intro (Or.inr rfl)),
    if_neg (show ¬ ((("SELL" : String) = "BUY" ∨ ("SELL" : String) = "SELL")
      ∧ sh ≤ 0) from fun h => absurd h.2 (not_le.mpr hsh)),
    if_neg (show ¬ ((("SELL" : String) = "BUY" ∨ ("SELL" : String) = "SELL")
      ∧ pr ≤ 0) from fun h => absurd h.2 (not_le.mpr hpr))]
  rfl

/-- `add_adjustment` success shape for a CASH_ADJ written by the edit
bridge. -/
theorem addAdjustment_CASH_ok (j : List AdjEntry) (c d : String)
    (sh pr ca : ℚ) (n nid : String) (now : Nat)
    (hc : ¬ (strTrim c = "")) (hd : ¬ (strTrim d = "")) :
    addAdjustment j "CASH_ADJ" c d sh pr ca (some n) (some "ui_edit") nid now
      = .ok (j ++ [⟨nid, "CASH_ADJ", strTrim c, strTrim d, sh, pr, ca, n,
          "ui_edit", now⟩]) := by
  simp only [addAdjustment]
  rw [show strUpper (strTrim "CASH_ADJ") = "CASH_ADJ" from by decide]
  rw [show strLower (strTrim (match (some "ui_edit" : Option String) with
    | none => "manual"
    | some s => if s = "" then "manual" else s)) = "ui_edit" from by decide]
  rw [if_neg (not_not_intro (Or.inr (Or.inr rfl))), if_neg hc, if_neg hd,
    if_neg (not_not_intro (Or.inr rfl)),
    if_neg (show ¬ ((("CASH_ADJ" : String) = "BUY"
      ∨ ("CASH_ADJ" : String) = "SELL") ∧ sh ≤ 0) from fun h => by
        rcases h.1 with h' | h' <;> exact absurd h' (by decide)),
    if_neg (show ¬ ((("CASH_ADJ" : String) = "BUY"
      ∨ ("CASH_ADJ" : String) = "SELL") ∧ pr ≤ 0) from fun h => by
        rcases h.1 with h' | h' <;> exact absurd h' (by decide))]
  rfl

/-- Strict version of the `list_adjustments` sort key order; used to pin
down the sorted list uniquely when `created_at` values are distinct. -/
def adjLT (a b : AdjEntry) : Prop :=
  strLt a.effective_date b.effective_date = true ∨
    (a.effective_date = b.effective_date ∧ a.created_at < b.created_at)

instance : IsAntisymm AdjEntry adjLT where
  antisymm a b h1 h2 := by
    exfalso
    rcases h1 with h1 | ⟨e1, l1⟩ <;> rcases h2 with h2 | ⟨e2, l2⟩
    · exact strLt_asymm h1 h2
    · rw [e2] at h1; exact absurd h1 (by simp [strLt_irrefl])
    · rw [e1] at h2; exact absurd h2 (by simp [strLt_irrefl])
    · exact Nat.lt_asymm l1 l2

theorem adjLT_of {a b : AdjEntry} (hle : adjLE a b)
    (hne : a.created_at ≠ b.created_at) : adjLT a b := by
  rcases hle with h | ⟨h, h'⟩
  · exact Or.inl h
  · exact Or.inr ⟨h, lt_of_le_of_ne h' hne⟩

theorem pairwise_adjLT_of : ∀ {l : List AdjEntry}, l.Pairwise adjLE →
    l.Pairwise (fun x y => x.created_at ≠ y.created_at) → l.Pairwise adjLT := by
  intro l h1 h2
  induction l with
  | nil => exact List.Pairwise.nil
  | cons x xs ih =>
    rw [List.pairwise_cons] at h1 h2 ⊢
    exact ⟨fun y hy => adjLT_of (h1.1 y hy) (h2.1 y hy), ih h1.2 h2.2⟩

/-- The sorted, date-filtered journal that `build_positions_as_of_safe`
replays. -/
def sortedFilter (t : String) (J : List AdjEntry) : List AdjEntry :=
  (listAdjustments J).filter (fun a => strLE a.effective_date t)

/-- The output-rendering step of `build_positions_as_of_safe`. -/
def stateKeysOut (st : ReplayState) : List PositionSnapshot :=
  (snapshotKeys st).filterMap (fun code =>
    let sh := dget st.shares code
    let rc := dget st.realized code
    if sh > 0 ∨ |rc| > oneE9 then
      some ⟨code, sh, dget st.avg_cost code, rc⟩
    else none)

theorem buildPositionsAsOf_eq (t : String) (J : List AdjEntry) :
    buildPositionsAsOf t J = stateKeysOut (replayFold (sortedFilter t J)) :=
  rfl

theorem replayFold_append (L : List AdjEntry) (b : AdjEntry) :
    replayFold (L ++ [b]) = replayStep (replayFold L) b := by
  simp [replayFold, List.foldl_append]

theorem symm_created_ne :
    Symmetric (fun x y : AdjEntry => x.created_at ≠ y.created_at) :=
  fun _ _ h => Ne.symm h

theorem pairwise_created_append {J0 : List AdjEntry} {b : AdjEntry}
    (hne : J0.Pairwise (fun x y => x.created_at ≠ y.created_at))
    (hcr : ∀ e ∈ J0, e.created_at < b.created_at) :
    (J0 ++ [b]).Pairwise (fun x y => x.created_at ≠ y.created_at) := by
  refine List.pairwise_append.mpr ⟨hne, List.pairwise_singleton _ _, ?_⟩
  intro x hx y hy
  simp only [List.mem_singleton] at hy
  subst hy
  exact Nat.ne_of_lt (hcr x hx)

/-- Appending an entry of the target date whose `created_at` dominates the
journal places it exactly at the end of the sorted, filtered list. -/
theorem sortedFilter_append_last (t : String) (J0 : List AdjEntry)
    (b : AdjEntry) (hbd : b.effective_date = t)
    (hne : J0.Pairwise (fun x y => x.created_at ≠ y.created_at))
    (hcr : ∀ e ∈ J0, e.created_at < b.created_at) :
    sortedFilter t (J0 ++ [b]) = sortedFilter t J0 ++ [b] := by
  have hpb : (strLE b.effective_date t) = true := by
    rw [hbd]; simp [strLE, strLt_irrefl]
  have hfsplit : (J0 ++ [b]).filter (fun a => strLE a.effective_date t)
      = J0.filter (fun a => strLE a.effective_date t) ++ [b] := by
    rw [List.filter_append]; simp [hpb]
  have hperm : List.Perm (sortedFilter t (J0 ++ [b]))
      (sortedFilter t J0 ++ [b]) := by
    refine ((List.perm_insertionSort adjLE (J0 ++ [b])).filter _).trans ?_
    rw [hfsplit]
    exact (((List.perm_insertionSort adjLE J0).filter _).symm).append_right [b]
  have hne2 := pairwise_created_append hne hcr
  have hLsort : (sortedFilter t (J0 ++ [b])).Pairwise adjLT := by
    have h1 : (List.insertionSort adjLE (J0 ++ [b])).Pairwise adjLE :=
      List.sorted_insertionSort adjLE _
    have h2 : (List.insertionSort adjLE (J0 ++ [b])).Pairwise
        (fun x y => x.created_at ≠ y.created_at) :=
      ((List.perm_insertionSort adjLE _).pairwise_iff (fun h => Ne.symm h)).mpr hne2
    exact (pairwise_adjLT_of h1 h2).filter _
  have hRsort : (sortedFilter t J0 ++ [b]).Pairwise adjLT := by
    refine List.pairwise_append.mpr
      ⟨?_, List.pairwise_singleton _ _, ?_⟩
    · have h1 : (List.insertionSort adjLE J0).Pairwise adjLE :=
        List.sorted_insertionSort adjLE _
      have h2 : (List.insertionSort adjLE J0).Pairwise
          (fun x y => x.created_at ≠ y.created_at) :=
        ((List.perm_insertionSort adjLE J0).pairwise_iff (fun h => Ne.symm h)).mpr
          hne
      exact (pairwise_adjLT_of h1 h2).filter _
    · intro x hx y hy
      simp only [List.mem_singleton] at hy
      subst hy
      rw [sortedFilter, List.mem_filter] at hx
      obtain ⟨hxm, hxp⟩ := hx
      have hxJ : x ∈ J0 := (List.perm_insertionSort adjLE J0).subset hxm
      by_cases hlt : strLt x.effective_date t = true
      · exact Or.inl (by rw [hbd]; exact hlt)
      · have hlt1 : strLt x.effective_date t = false := by
          cases h : strLt x.effective_date t
          · rfl
          · exact absurd h hlt
        have hlt2 : strLt t x.effective_date = false := by
          simpa [strLE] using hxp
        exact Or.inr ⟨by rw [hbd]; exact str_eq_of_not_lt hlt1 hlt2,
          hcr x hxJ⟩
  exact List.eq_of_perm_of_sorted hperm hLsort hRsort

/-- `replayStep` reads only (type, code, shares, price, cash) of the entry
and the three dictionaries of the state; `id` and `created_at` feed only
 the warning strings. -/
theorem replayStep_core {s s' : ReplayState}
    (hsh : s.shares = s'.shares) (hav : s.avg_cost = s'.avg_cost)
    (hre : s.realized = s'.realized) {a a' : AdjEntry}
    (ht : a.type = a'.type) (hco : a.code = a'.code)
    (hs2 : a.shares = a'.shares) (hp : a.price = a'.price)
    (hca : a.cash = a'.cash) :
    (replayStep s a).shares = (replayStep s' a').shares ∧
    (replayStep s a).avg_cost = (replayStep s' a').avg_cost ∧
    (replayStep s a).realized = (replayStep s' a').realized := by
  by_cases h1 : a.type = "BUY"
  · simp [replayStep, h1, ← ht, ← hco, ← hs2, ← hp, ← hca, hsh, hav, hre]
  · by_cases h2 : a.type = "SELL"
    · by_cases h3 : a.shares ≤ 0 ∨ a.price ≤ 0
      · simp [replayStep, h1, h2, h3, ← ht, ← hco, ← hs2, ← hp, ← hca,
          hsh, hav, hre]
      · simp [replayStep, h1, h2, h3, ← ht, ← hco, ← hs2, ← hp, ← hca,
          hsh, hav, hre]
    · by_cases h4 : a.type = "CASH_ADJ" <;>
        simp [replayStep, h1, h2, h4, ← ht, ← hco, ← hs2, ← hp, ← hca,
          hsh, hav, hre]

theorem stateKeysOut_congr {st st' : ReplayState}
    (h1 : st.shares = st'.shares) (h2 : st.avg_cost = st'.avg_cost)
    (h3 : st.realized = st'.realized) :
    stateKeysOut st = stateKeysOut st' := by
  simp only [stateKeysOut, snapshotKeys, h1, h2, h3]

/-- Replacing the final appended entry by one with the same values but a
different `id`/`created_at` leaves the rendered positions unchanged. -/
theorem buildPositions_append1 (t : String) (J0 : List AdjEntry)
    (b b' : AdjEntry)
    (hne : J0.Pairwise (fun x y => x.created_at ≠ y.created_at))
    (hb : ∀ e ∈ J0, e.created_at < b.created_at)
    (hb' : ∀ e ∈ J0, e.created_at < b'.created_at)
    (hd1 : b.effective_date = t) (hd2 : b'.effective_date = t)
    (ht : b.type = b'.type) (hco : b.code = b'.code)
    (hs2 : b.shares = b'.shares) (hp : b.price = b'.price)
    (hca : b.cash = b'.cash) :
    buildPositionsAsOf t (J0 ++ [b]) = buildPositionsAsOf t (J0 ++ [b']) := by
  rw [buildPositionsAsOf_eq, buildPositionsAsOf_eq,
    sortedFilter_append_last t J0 b hd1 hne hb,
    sortedFilter_append_last t J0 b' hd2 hne hb',
    replayFold_append, replayFold_append]
  obtain ⟨g1, g2, g3⟩ := replayStep_core rfl rfl rfl ht hco hs2 hp hca
  exact stateKeysOut_congr g1 g2 g3

/-- The two-entry variant of `buildPositions_append1`. -/
theorem buildPositions_append2 (t : String) (J0 : List AdjEntry)
    (b1 b2 b1' b2' : AdjEntry)
    (hne : J0.Pairwise (fun x y => x.created_at ≠ y.created_at))
    (hb1 : ∀ e ∈ J0, e.created_at < b1.created_at)
    (h12 : b1.created_at < b2.created_at)
    (hb1' : ∀ e ∈ J0, e.created_at < b1'.created_at)
    (h12' : b1'.created_at < b2'.created_at)
    (hd1 : b1.effective_date = t) (hd2 : b2.effective_date = t)
    (hd1' : b1'.effective_date = t) (hd2' : b2'.effective_date = t)
    (hc1 : b1.type = b1'.type ∧ b1.code = b1'.code ∧ b1.shares = b1'.shares
      ∧ b1.price = b1'.price ∧ b1.cash = b1'.cash)
    (hc2 : b2.type = b2'.type ∧ b2.code = b2'.code ∧ b2.shares = b2'.shares
      ∧ b2.price = b2'.price ∧ b2.cash = b2'.cash) :
    buildPositionsAsOf t (J0 ++ [b1] ++ [b2])
      = buildPositionsAsOf t (J0 ++ [b1'] ++ [b2']) := by
  have hne1 : (J0 ++ [b1]).Pairwise (fun x y => x.created_at ≠ y.created_at) :=
    pairwise_created_append hne hb1
  have hne1' : (J0 ++ [b1']).Pairwise
      (fun x y => x.created_at ≠ y.created_at) :=
    pairwise_created_append hne hb1'
  have hbnd : ∀ e ∈ J0 ++ [b1], e.created_at < b2.created_at := by
    intro e he
    rcases List.mem_append.mp he with h | h
    · exact Nat.lt_trans (hb1 e h) h12
    · simp only [List.mem_singleton] at h; subst h; exact h12
  have hbnd' : ∀ e ∈ J0 ++ [b1'], e.created_at < b2'.created_at := by
    intro e he
    rcases List.mem_append.mp he with h | h
    · exact Nat.lt_trans (hb1' e h) h12'
    · simp only [List.mem_singleton] at h; subst h; exact h12'
  rw [buildPositionsAsOf_eq, buildPositionsAsOf_eq,
    sortedFilter_append_last t (J0 ++ [b1]) b2 hd2 hne1 hbnd,
    sortedFilter_append_last t (J0 ++ [b1']) b2' hd2' hne1' hbnd',
    sortedFilter_append_last t J0 b1 hd1 hne hb1,
    sortedFilter_append_last t J0 b1' hd1' hne hb1',
    replayFold_append, replayFold_append, replayFold_append,
    replayFold_append]
  obtain ⟨g1, g2, g3⟩ := replayStep_core rfl rfl rfl hc1.1 hc1.2.1 hc1.2.2.1
    hc1.2.2.2.1 hc1.2.2.2.2
  obtain ⟨k1, k2, k3⟩ := replayStep_core g1 g2 g3 hc2.1 hc2.2.1 hc2.2.2.1
    hc2.2.2.2.1 hc2.2.2.2.2
  exact stateKeysOut_congr k1 k2 k3

theorem mfun_created_at (c d : String) (e : AdjEntry) :
    (mfun c d e).created_at = e.created_at := by
  simp only [mfun]
  repeat' split
  all_goals rfl

theorem mfun_fixed_of_ui {c d : String} {e : AdjEntry}
    (h : e.source = "ui_edit") : mfun c d e = e := by
  have hui : (strLower (strTrim "ui_edit") == "ui_edit") = true := by decide
  by_cases h1 : c ≠ "" ∧ strTrim e.code ≠ c
  · simp [mfun, h1]
  · by_cases h2 : d ≠ "" ∧ strTrim e.effective_date ≠ d
    · simp [mfun, h1, h2]
    · simp [mfun, h1, h2, h, hui]

theorem srcOf_ui {e : AdjEntry} (h : e.source = "ui_edit") :
    srcOf e = "ui_edit" := by
  simp only [srcOf, h]
  decide

/-- `uiEditRowOf` looks only at the code, date and source fields. -/
theorem uiEditRowOf_congr (c d : String) {e e' : AdjEntry}
    (h1 : e.code = e'.code) (h2 : e.effective_date = e'.effective_date)
    (h3 : e.source = e'.source) :
    uiEditRowOf c d e = uiEditRowOf c d e' := by
  simp only [uiEditRowOf, srcOf, h1, h2, h3]

/-- `remove_adjustments_by_code_date(code, date, "ui_edit")` on trimmed,
non-empty arguments: migrate, then drop exactly the ui_edit rows of that
(code, date). -/
theorem removal_ui_edit_eq (c d : String) (hc : strTrim c = c)
    (hc0 : c ≠ "") (hd : strTrim d = d) (hd0 : d ≠ "")
    (j : List AdjEntry) :
    removeAdjustmentsByCodeDate c d "ui_edit" j
      = .ok ((j.map (mfun c d)).filter
          (fun it => !(uiEditRowOf c d it))) := by
  have hsrc : strLower (strTrim "ui_edit") = "ui_edit" := by decide
  simp only [removeAdjustmentsByCodeDate, migrateUiEditSource, uiEditRowOf,
    hc, hd, hsrc]
  rw [if_neg hc0, if_neg hd0]
  have h1 : (("ui_edit" : String) == "ui_edit") = true := by decide
  have h2 : (("ui_edit" : String) == "") = false := by decide
  simp [h1, h2]

/-- Second-run removal: the journal is the post-removal journal `J0` plus
edit-bridge rows; removal restores exactly `J0`. -/
theorem removal_of_appended (c d : String) (hc : strTrim c = c)
    (hc0 : c ≠ "") (hd : strTrim d = d) (hd0 : d ≠ "")
    (J0 A : List AdjEntry)
    (hfix : ∀ x ∈ J0, mfun c d x = x)
    (hkeep : ∀ x ∈ J0, uiEditRowOf c d x = false)
    (hA : ∀ b ∈ A, b.code = c ∧ b.effective_date = d
      ∧ b.source = "ui_edit") :
    removeAdjustmentsByCodeDate c d "ui_edit" (J0 ++ A) = .ok J0 := by
  rw [removal_ui_edit_eq c d hc hc0 hd hd0]
  have hmap : (J0 ++ A).map (mfun c d) = J0 ++ A := by
    refine map_mfun_fixed c d (J0 ++ A) ?_
    intro x hx
    rcases List.mem_append.mp hx with h | h
    · exact hfix x h
    · exact mfun_fixed_of_ui (hA x h).2.2
  rw [hmap, List.filter_append]
  have hJ0 : J0.filter (fun it => !(uiEditRowOf c d it)) = J0 :=
    List.filter_eq_self.mpr (fun x hx => by simp [hkeep x hx])
  have hAnil : A.filter (fun it => !(uiEditRowOf c d it)) = [] := by
    rw [List.filter_eq_nil]
    intro b hb
    obtain ⟨hbc, hbd, hbs⟩ := hA b hb
    simp [uiEditRowOf, hbc, hbd, hc, hd, srcOf_ui hbs]
  rw [hJ0, hAnil, List.append_nil]

/-- The post-removal tail of `apply_position_edit`: deltas against the
snapshot of the cleaned journal `J0`, then the BUY/SELL and CASH_ADJ
appends.  Pure value-level restatement used to reason about both runs. -/
def editCore (d c : String) (sh av re : ℚ) (note : Option String)
    (J0 : List AdjEntry) (n : Nat) : List AdjEntry × Nat :=
  let baseSh := snapshotShares d c J0
  let delta := sh - baseSh
  let price := if 0 < av then av else 1
  let step1 : List AdjEntry × Nat :=
    if oneE9 < |delta| then
      if 0 < delta then
        (J0 ++ [⟨idString n, "BUY", c, d, delta, price, 0,
          note.getD "edit->BUY", "ui_edit", n⟩], n + 1)
      else
        (J0 ++ [⟨idString n, "SELL", c, d, |delta|, price, 0,
          note.getD "edit->SELL", "ui_edit", n⟩], n + 1)
    else (J0, n)
  let j2 := step1.1
  let n2 := step1.2
  let curReal := snapshotRealized d c j2
  let deltaReal := re - curReal
  if oneE6 < |deltaReal| then
    (j2 ++ [⟨idString n2, "CASH_ADJ", c, d, 0, 0, deltaReal,
      note.getD "edit->CASH_ADJ", "ui_edit", n2⟩], n2 + 1)
  else (j2, n2)

theorem exists_append_zero {P : AdjEntry → Prop} (J0 : List AdjEntry) :
    ∃ A, J0 = J0 ++ A ∧ ∀ b ∈ A, P b :=
  ⟨[], (List.append_nil J0).symm, by intro b hb; simp at hb⟩

theorem exists_append_one {P : AdjEntry → Prop} (J0 : List AdjEntry)
    (x : AdjEntry) (hx : P x) :
    ∃ A, J0 ++ [x] = J0 ++ A ∧ ∀ b ∈ A, P b :=
  ⟨[x], rfl, by
    intro b hb
    simp only [List.mem_singleton] at hb
    subst hb
    exact hx⟩

theorem exists_append_two {P : AdjEntry → Prop} (J0 : List AdjEntry)
    (x y : AdjEntry) (hx : P x) (hy : P y) :
    ∃ A, J0 ++ [x] ++ [y] = J0 ++ A ∧ ∀ b ∈ A, P b :=
  ⟨[x, y], List.append_assoc J0 [x] [y], by
    intro b hb
    rcases List.mem_cons.mp hb with h | h
    · subst h; exact hx
    · simp only [List.mem_singleton] at h; subst h; exact hy⟩

theorem editCore_shape (d c : String) (sh av re : ℚ) (note : Option String)
    (J0 : List AdjEntry) (n : Nat) :
    ∃ A : List AdjEntry, (editCore d c sh av re note J0 n).1 = J0 ++ A ∧
      ∀ b ∈ A, b.code = c ∧ b.effective_date = d ∧ b.source = "ui_edit" := by
  simp only [editCore]
  repeat' split
  all_goals first
    | exact exists_append_zero J0
    | exact exists_append_one J0 _ ⟨rfl, rfl, rfl⟩
    | exact exists_append_two J0 _ _ ⟨rfl, rfl, rfl⟩ ⟨rfl, rfl, rfl⟩

theorem editCore_clock_ge (d c : String) (sh av re : ℚ)
    (note : Option String) (J0 : List AdjEntry) (n : Nat) :
    n ≤ (editCore d c sh av re note J0 n).2 := by
  simp only [editCore]
  repeat' split
  all_goals omega

theorem count_append_one (c d : String) (J0 : List AdjEntry)
    (x y : AdjEntry) (h : uiEditRowOf c d x = uiEditRowOf c d y) :
    countUiEdit c d (J0 ++ [x]) = countUiEdit c d (J0 ++ [y]) := by
  simp only [countUiEdit, List.filter_append, List.length_append]
  congr 1
  cases hcy : uiEditRowOf c d y
  · rw [hcy] at h; simp [List.filter_cons, h, hcy]
  · rw [hcy] at h; simp [List.filter_cons, h, hcy]

theorem count_append_two (c d : String) (J0 : List AdjEntry)
    (x1 x2 y1 y2 : AdjEntry)
    (h1 : uiEditRowOf c d x1 = uiEditRowOf c d y1)
    (h2 : uiEditRowOf c d x2 = uiEditRowOf c d y2) :
    countUiEdit c d (J0 ++ [x1] ++ [x2])
      = countUiEdit c d (J0 ++ [y1] ++ [y2]) := by
  simp only [countUiEdit, List.filter_append, List.length_append]
  congr 1
  · congr 1
    cases hcy : uiEditRowOf c d y1
    · rw [hcy] at h1; simp [List.filter_cons, h1, hcy]
    · rw [hcy] at h1; simp [List.filter_cons, h1, hcy]
  · cases hcy : uiEditRowOf c d y2
    · rw [hcy] at h2; simp [List.filter_cons, h2, hcy]
    · rw [hcy] at h2; simp [List.filter_cons, h2, hcy]

/-- Re-running the edit tail at any later clock appends rows with the same
values, so the as-of positions and the ui_edit row count are unchanged. -/
theorem editCore_shift (d c : String) (sh av re : ℚ) (note : Option String)
    (J0 : List AdjEntry) (n n' : Nat)
    (hne : J0.Pairwise (fun x y => x.created_at ≠ y.created_at))
    (hb : ∀ e ∈ J0, e.created_at < n) (hnn : n ≤ n') :
    buildPositionsAsOf d (editCore d c sh av re note J0 n').1
      = buildPositionsAsOf d (editCore d c sh av re note J0 n).1 ∧
    countUiEdit c d (editCore d c sh av re note J0 n').1
      = countUiEdit c d (editCore d c sh av re note J0 n).1 := by
  have hb' : ∀ e ∈ J0, e.created_at < n' :=
    fun e he => Nat.lt_of_lt_of_le (hb e he) hnn
  by_cases hP : oneE9 < |sh - snapshotShares d c J0|
  · by_cases hPos : 0 < sh - snapshotShares d c J0
    · simp only [editCore, if_pos hP, if_pos hPos]
      have hpos1 : buildPositionsAsOf d (J0 ++
            [⟨idString n', "BUY", c, d, sh - snapshotShares d c J0,
              if 0 < av then av else 1, 0, note.getD "edit->BUY",
              "ui_edit", n'⟩])
          = buildPositionsAsOf d (J0 ++
            [⟨idString n, "BUY", c, d, sh - snapshotShares d c J0,
              if 0 < av then av else 1, 0, note.getD "edit->BUY",
              "ui_edit", n⟩]) :=
        buildPositions_append1 d J0 _ _ hne hb' hb rfl rfl rfl rfl rfl rfl
          rfl
      have hreal : snapshotRealized d c (J0 ++
            [⟨idString n', "BUY", c, d, sh - snapshotShares d c J0,
              if 0 < av then av else 1, 0, note.getD "edit->BUY",
              "ui_edit", n'⟩])
          = snapshotRealized d c (J0 ++
            [⟨idString n, "BUY", c, d, sh - snapshotShares d c J0,
              if 0 < av then av else 1, 0, note.getD "edit->BUY",
              "ui_edit", n⟩]) := by
        simp only [snapshotRealized, buildPositionsAsOf] at hpos1 ⊢
        rw [hpos1]
      rw [hreal]
      by_cases hQ : oneE6 < |re - snapshotRealized d c (J0 ++
          [⟨idString n, "BUY", c, d, sh - snapshotShares d c J0,
            if 0 < av then av else 1, 0, note.getD "edit->BUY",
            "ui_edit", n⟩])|
      · rw [if_pos hQ, if_pos hQ]
        constructor
        · exact buildPositions_append2 d J0 _ _ _ _ hne hb'
            (Nat.lt_succ_self n') hb (Nat.lt_succ_self n) rfl rfl rfl rfl
            ⟨rfl, rfl, rfl, rfl, rfl⟩ ⟨rfl, rfl, rfl, rfl, rfl⟩
        · exact count_append_two c d J0 _ _ _ _
            (uiEditRowOf_congr c d rfl rfl rfl)
            (uiEditRowOf_congr c d rfl rfl rfl)
      · rw [if_neg hQ, if_neg hQ]
        exact ⟨hpos1, count_append_one c d J0 _ _
          (uiEditRowOf_congr c d rfl rfl rfl)⟩
    · simp only [editCore, if_pos hP, if_neg hPos]
      have hpos1 : buildPositionsAsOf d (J0 ++
            [⟨idString n', "SELL", c, d, |sh - snapshotShares d c J0|,
              if 0 < av then av else 1, 0, note.getD "edit->SELL",
              "ui_edit", n'⟩])
          = buildPositionsAsOf d (J0 ++
            [⟨idString n, "SELL", c, d, |sh - snapshotShares d c J0|,
              if 0 < av then av else 1, 0, note.getD "edit->SELL",
              "ui_edit", n⟩]) :=
        buildPositions_append1 d J0 _ _ hne hb' hb rfl rfl rfl rfl rfl rfl
          rfl
      have hreal : snapshotRealized d c (J0 ++
            [⟨idString n', "SELL", c, d, |sh - snapshotShares d c J0|,
              if 0 < av then av else 1, 0, note.getD "edit->SELL",
              "ui_edit", n'⟩])
          = snapshotRealized d c (J0 ++
            [⟨idString n, "SELL", c, d, |sh - snapshotShares d c J0|,
              if 0 < av then av else 1, 0, note.getD "edit->SELL",
              "ui_edit", n⟩]) := by
        simp only [snapshotRealized, buildPositionsAsOf] at hpos1 ⊢
        rw [hpos1]
      rw [hreal]
      by_cases hQ : oneE6 < |re - snapshotRealized d c (J0 ++
          [⟨idString n, "SELL", c, d, |sh - snapshotShares d c J0|,
            if 0 < av then av else 1, 0, note.getD "edit->SELL",
            "ui_edit", n⟩])|
      · rw [if_pos hQ, if_pos hQ]
        constructor
        · exact buildPositions_append2 d J0 _ _ _ _ hne hb'
            (Nat.lt_succ_self n') hb (Nat.lt_succ_self n) rfl rfl rfl rfl
            ⟨rfl, rfl, rfl, rfl, rfl⟩ ⟨rfl, rfl, rfl, rfl, rfl⟩
        · exact count_append_two c d J0 _ _ _ _
            (uiEditRowOf_congr c d rfl rfl rfl)
            (uiEditRowOf_congr c d rfl rfl rfl)
      · rw [if_neg hQ, if_neg hQ]
        exact ⟨hpos1, count_append_one c d J0 _ _
          (uiEditRowOf_congr c d rfl rfl rfl)⟩
  · simp only [editCore, if_neg hP]
    by_cases hQ : oneE6 < |re - snapshotRealized d c J0|
    · rw [if_pos hQ, if_pos hQ]
      constructor
      · exact buildPositions_append1 d J0 _ _ hne hb' hb rfl rfl rfl rfl
          rfl rfl rfl
      · exact count_append_one c d J0 _ _
          (uiEditRowOf_congr c d rfl rfl rfl)
    · rw [if_neg hQ, if_neg hQ]
      exact ⟨rfl, rfl⟩

/-- Under valid inputs, `apply_position_edit` succeeds and equals the pure
`editCore` tail applied to the post-removal journal. -/
theorem applyPositionEdit_ok (effective_date code : String)
    (sh av re : ℚ) (note : Option String) (journal : List AdjEntry)
    (clock : Nat) (J0 : List AdjEntry)
    (hc : strTrim code = code) (hc0 : code ≠ "")
    (hsh : 0 ≤ sh) (hav : 0 ≤ av)
    (hdv : isValidDateStr effective_date = true)
    (hdt : strTrim effective_date = effective_date)
    (hd0 : effective_date ≠ "")
    (hrem : removeAdjustmentsByCodeDate code effective_date "ui_edit"
      journal = .ok J0) :
    applyPositionEdit effective_date code sh av re note journal clock
      = .ok (editCore effective_date code sh av re note J0 clock) := by
  have hcne : ¬ (strTrim code = "") := by rw [hc]; exact hc0
  have hdne : ¬ (strTrim effective_date = "") := by rw [hdt]; exact hd0
  have v1 : ¬ (sh < 0) := not_lt.mpr hsh
  have v2 : ¬ (av < 0) := not_lt.mpr hav
  have hprice : (0:ℚ) < if 0 < av then av else 1 := by
    by_cases h : 0 < av <;> norm_num [h]
  by_cases hP : oneE9 < |sh - snapshotShares effective_date code J0|
  · by_cases hPos : 0 < sh - snapshotShares effective_date code J0
    · have hbuy := addAdjustment_BUY_ok J0 code effective_date
        (sh - snapshotShares effective_date code J0)
        (if 0 < av then av else 1) 0 (note.getD "edit->BUY")
        (idString clock) clock hcne hdne hPos hprice
      rw [hc, hdt] at hbuy
      by_cases hQ : oneE6 < |re - snapshotRealized effective_date code
          (J0 ++ [⟨idString clock, "BUY", code, effective_date,
            sh - snapshotShares effective_date code J0,
            if 0 < av then av else 1, 0, note.getD "edit->BUY",
            "ui_edit", clock⟩])|
      · have hcash := addAdjustment_CASH_ok
          (J0 ++ [⟨idString clock, "BUY", code, effective_date,
            sh - snapshotShares effective_date code J0,
            if 0 < av then av else 1, 0, note.getD "edit->BUY",
            "ui_edit", clock⟩]) code effective_date 0 0
          (re - snapshotRealized effective_date code
            (J0 ++ [⟨idString clock, "BUY", code, effective_date,
              sh - snapshotShares effective_date code J0,
              if 0 < av then av else 1, 0, note.getD "edit->BUY",
              "ui_edit", clock⟩]))
          (note.getD "edit->CASH_ADJ") (idString (clock + 1)) (clock + 1)
          hcne hdne
        rw [hc, hdt] at hcash
        simp only [applyPositionEdit, editCore, hc, hdt, hc0, v1, v2, hdv, Bool.true_eq_false,
          hrem, hP, hPos, hQ, hbuy, hcash, if_true, if_false, ite_true,
          ite_false]
      · simp only [applyPositionEdit, editCore, hc, hdt, hc0, v1, v2, hdv, Bool.true_eq_false,
          hrem, hP, hPos, hQ, hbuy, if_true, if_false, ite_true, ite_false]
    · have hsell_pos : (0:ℚ) <
          |sh - snapshotShares effective_date code J0| :=
        lt_trans (by norm_num [oneE9]) hP
      have hsell := addAdjustment_SELL_ok J0 code effective_date
        (|sh - snapshotShares effective_date code J0|)
        (if 0 < av then av else 1) 0 (note.getD "edit->SELL")
        (idString clock) clock hcne hdne hsell_pos hprice
      rw [hc, hdt] at hsell
      by_cases hQ : oneE6 < |re - snapshotRealized effective_date code
          (J0 ++ [⟨idString clock, "SELL", code, effective_date,
            |sh - snapshotShares effective_date code J0|,
            if 0 < av then av else 1, 0, note.getD "edit->SELL",
            "ui_edit", clock⟩])|
      · have hcash := addAdjustment_CASH_ok
          (J0 ++ [⟨idString clock, "SELL", code, effective_date,
            |sh - snapshotShares effective_date code J0|,
            if 0 < av then av else 1, 0, note.getD "edit->SELL",
            "ui_edit", clock⟩]) code effective_date 0 0
          (re - snapshotRealized effective_date code
            (J0 ++ [⟨idString clock, "SELL", code, effective_date,
              |sh - snapshotShares effective_date code J0|,
              if 0 < av then av else 1, 0, note.getD "edit->SELL",
              "ui_edit", clock⟩]))
          (note.getD "edit->CASH_ADJ") (idString (clock + 1)) (clock + 1)
          hcne hdne
        rw [hc, hdt] at hcash
        simp only [applyPositionEdit, editCore, hc, hdt, hc0, v1, v2, hdv, Bool.true_eq_false,
          hrem, hP, hPos, hQ, hsell, hcash, if_true, if_false, ite_true,
          ite_false]
      · simp only [applyPositionEdit, editCore, hc, hdt, hc0, v1, v2, hdv, Bool.true_eq_false,
          hrem, hP, hPos, hQ, hsell, if_true, if_false, ite_true,
          ite_false]
  · by_cases hQ : oneE6 < |re - snapshotRealized effective_date code J0|
    · have hcash := addAdjustment_CASH_ok J0 code effective_date 0 0
        (re - snapshotRealized effective_date code J0)
        (note.getD "edit->CASH_ADJ") (idString clock) clock hcne hdne
      rw [hc, hdt] at hcash
      simp only [applyPositionEdit, editCore, hc, hdt, hc0, v1, v2, hdv, Bool.true_eq_false,
        hrem, hP, hQ, hcash, if_true, if_false, ite_true, ite_false]
    · simp only [applyPositionEdit, editCore, hc, hdt, hc0, v1, v2, hdv, Bool.true_eq_false,
        hrem, hP, hQ, if_true, if_false, ite_true, ite_false]

/-- **C4**: for every journal, date, instrument code and edit target,
applying `apply_position_edit` with the same arguments twice in succession
yields the same position snapshot as applying it once
(`build_positions_as_of` agrees on the edit date) and leaves no duplicate
ui_edit entries (the count of ui_edit rows of that (code, date) is the
same after one and after two applications), because the second application
first deletes exactly the ui_edit entries of that (code, date)
(`remove_adjustments_by_code_date` returns the journal minus precisely
those rows) and never deletes manually entered entries (every non-ui_edit
row of the first result survives into the second).  Hypotheses: the code is
trimmed and non-empty, the date is a valid (trimmed, non-empty) date
string, targets are non-negative, and the journal's `created_at` stamps
are distinct and below the current clock. -/
theorem claim_C4_edit_idempotent
    (journal : List AdjEntry) (clock : Nat) (code effective_date : String)
    (shares_end avg_cost_nav_end realized_pnl_end : ℚ)
    (note : Option String)
    (hc : strTrim code = code) (hc0 : code ≠ "")
    (hdv : isValidDateStr effective_date = true)
    (hsh : 0 ≤ shares_end) (hav : 0 ≤ avg_cost_nav_end)
    (hcl : ∀ e ∈ journal, e.created_at < clock)
    (hne : journal.Pairwise (fun a b => a.created_at ≠ b.created_at)) :
    ∃ j1 c1 j2 c2,
      applyPositionEdit effective_date code shares_end avg_cost_nav_end
        realized_pnl_end note journal clock = .ok (j1, c1) ∧
      applyPositionEdit effective_date code shares_end avg_cost_nav_end
        realized_pnl_end note j1 c1 = .ok (j2, c2) ∧
      buildPositionsAsOf effective_date j2
        = buildPositionsAsOf effective_date j1 ∧
      countUiEdit code effective_date j2
        = countUiEdit code effective_date j1 ∧
      removeAdjustmentsByCodeDate code effective_date "ui_edit" j1
        = .ok (j1.filter (fun e => !(uiEditRowOf code effective_date e))) ∧
      (∀ e ∈ j1, srcOf e ≠ "ui_edit" → e ∈ j2) := by
  obtain ⟨hd0, hdt⟩ : effective_date ≠ ""
      ∧ strTrim effective_date = effective_date := by
    have h := hdv
    simp only [isValidDateStr, Bool.and_eq_true, decide_eq_true_eq,
      beq_iff_eq] at h
    exact ⟨h.1, h.2⟩
  have hrem1 : removeAdjustmentsByCodeDate code effective_date "ui_edit"
      journal = .ok ((journal.map (mfun code effective_date)).filter
        (fun it => !(uiEditRowOf code effective_date it))) :=
    removal_ui_edit_eq code effective_date hc hc0 hdt hd0 journal
  set J0 := (journal.map (mfun code effective_date)).filter
    (fun it => !(uiEditRowOf code effective_date it)) with hJ0def
  have hfix0 : ∀ x ∈ J0, mfun code effective_date x = x := by
    intro x hx
    rw [hJ0def, List.mem_filter] at hx
    obtain ⟨y, _, rfl⟩ := List.mem_map.mp hx.1
    exact mfun_idem _ _ y
  have hkeep : ∀ x ∈ J0, uiEditRowOf code effective_date x = false := by
    intro x hx
    rw [hJ0def, List.mem_filter] at hx
    simpa using hx.2
  have hbound : ∀ e ∈ J0, e.created_at < clock := by
    intro e he
    rw [hJ0def, List.mem_filter] at he
    obtain ⟨y, hy, rfl⟩ := List.mem_map.mp he.1
    rw [mfun_created_at]
    exact hcl y hy
  have hneJ0 : J0.Pairwise (fun a b => a.created_at ≠ b.created_at) := by
    rw [hJ0def]
    refine List.Pairwise.filter _ ?_
    rw [List.pairwise_map]
    refine hne.imp ?_
    intro a b h
    rw [mfun_created_at, mfun_created_at]
    exact h
  have hrun1 := applyPositionEdit_ok effective_date code shares_end
    avg_cost_nav_end realized_pnl_end note journal clock J0 hc hc0 hsh hav
    hdv hdt hd0 hrem1
  obtain ⟨A, hAeq, hAall⟩ := editCore_shape effective_date code shares_end
    avg_cost_nav_end realized_pnl_end note J0 clock
  have hrem2 : removeAdjustmentsByCodeDate code effective_date "ui_edit"
      (editCore effective_date code shares_end avg_cost_nav_end
        realized_pnl_end note J0 clock).1 = .ok J0 := by
    rw [hAeq]
    exact removal_of_appended code effective_date hc hc0 hdt hd0 J0 A
      hfix0 hkeep hAall
  have hrun2 := applyPositionEdit_ok effective_date code shares_end
    avg_cost_nav_end realized_pnl_end note
    (editCore effective_date code shares_end avg_cost_nav_end
      realized_pnl_end note J0 clock).1
    (editCore effective_date code shares_end avg_cost_nav_end
      realized_pnl_end note J0 clock).2 J0 hc hc0 hsh hav hdv hdt hd0 hrem2
  have hge := editCore_clock_ge effective_date code shares_end
    avg_cost_nav_end realized_pnl_end note J0 clock
  have hshift := editCore_shift effective_date code shares_end
    avg_cost_nav_end realized_pnl_end note J0 clock
    (editCore effective_date code shares_end avg_cost_nav_end
      realized_pnl_end note J0 clock).2 hneJ0 hbound hge
  obtain ⟨A2, hA2eq, hA2all⟩ := editCore_shape effective_date code
    shares_end avg_cost_nav_end realized_pnl_end note J0
    (editCore effective_date code shares_end avg_cost_nav_end
      realized_pnl_end note J0 clock).2
  refine ⟨(editCore effective_date code shares_end avg_cost_nav_end
      realized_pnl_end note J0 clock).1,
    (editCore effective_date code shares_end avg_cost_nav_end
      realized_pnl_end note J0 clock).2,
    (editCore effective_date code shares_end avg_cost_nav_end
      realized_pnl_end note J0
      (editCore effective_date code shares_end avg_cost_nav_end
        realized_pnl_end note J0 clock).2).1,
    (editCore effective_date code shares_end avg_cost_nav_end
      realized_pnl_end note J0
      (editCore effective_date code shares_end avg_cost_nav_end
        realized_pnl_end note J0 clock).2).2,
    hrun1, hrun2, hshift.1, hshift.2, ?_, ?_⟩
  · rw [hrem2, hAeq, List.filter_append,
      List.filter_eq_self.mpr (fun x hx => by simp [hkeep x hx])]
    have hAnil : A.filter
        (fun e => !(uiEditRowOf code effective_date e)) = [] := by
      rw [List.filter_eq_nil]
      intro b hb
      obtain ⟨hbc, hbd, hbs⟩ := hAall b hb
      simp [uiEditRowOf, hbc, hbd, hc, hdt, srcOf_ui hbs]
    rw [hAnil, List.append_nil]
  · intro e he hs
    rw [hAeq] at he
    rw [hA2eq]
    rcases List.mem_append.mp he with h | h
    · exact List.mem_append_left _ h
    · exact absurd (srcOf_ui (hAall e h).2.2) hs

/-- Concrete instantiation of C4: editing a fresh journal to
(shares 1000, avg cost 4.5, realized 5) twice. -/
theorem claim_C4_witness :
    ∃ j1 c1 j2 c2,
      applyPositionEdit "2026-01-29" "510300" 1000 (9/2) 5 none [] 0
        = .ok (j1, c1) ∧
      applyPositionEdit "2026-01-29" "510300" 1000 (9/2) 5 none j1 c1
        = .ok (j2, c2) ∧
      buildPositionsAsOf "2026-01-29" j2
        = buildPositionsAsOf "2026-01-29" j1 ∧
      countUiEdit "510300" "2026-01-29" j2
        = countUiEdit "510300" "2026-01-29" j1 ∧
      removeAdjustmentsByCodeDate "510300" "2026-01-29" "ui_edit" j1
        = .ok (j1.filter
            (fun e => !(uiEditRowOf "510300" "2026-01-29" e))) ∧
      (∀ e ∈ j1, srcOf e ≠ "ui_edit" → e ∈ j2) :=
  claim_C4_edit_idempotent [] 0 "510300" "2026-01-29" 1000 (9/2) 5 none
    (by decide) (by decide) (by decide) (by norm_num) (by norm_num)
    (by simp) (by simp)

end FundEstimator
